import Mathlib

/-!
Verification of the NobleChain wallet ledger engine
(source file `src/unnamed/part_000`, class `NobleChain`).

Modelling conventions:
* JavaScript numbers are modelled as exact rationals (`ℚ`).  The spec
  mandates decimal arithmetic for the ledger, and no claim depends on
  IEEE-754 rounding.  Division is Mathlib division on `ℚ` (which yields
  zero at a zero denominator; every theorem whose content depends on a
  quotient has a nonzero-denominator hypothesis or concerns only the
  error behaviour of the operation).
* JavaScript objects used as string-keyed maps (`this.wallets`,
  `wallet.assets`, the PIN storage object) are modelled as association
  lists with the JS object semantics: first-match lookup,
  overwrite-in-place, append-if-absent, delete.
* `localStorage` persistence (the `loadX`/`saveX` pairs) is the identity
  in the model: state is threaded explicitly through every operation.
* `Date.now()` timestamps and the random component of `generateId()`
  carry no information used by any claim; transaction ids are modelled
  by a fresh counter `nextId`, timestamps are elided.
* `this.currentUser` is passed to each operation explicitly as the
  acting user id (the session mechanism itself is out of scope).
* Each operation is a function `EngineState → EngineState × Except Err α`:
  a thrown exception carries the state at the moment of the throw, so
  all-or-nothing behaviour is a theorem about the code, not an artifact
  of the embedding.
* User records keep only the fields the modelled operations read
  (`id`, `username`); email dispatch is recorded as `(userId, eventType)`
  events, UI notifications (`addNotification`) as a counter, and the
  admin action log (`logAdminAction`) as `(action, userId, success)`
  events, since no claim inspects their display strings.
-/

set_option maxHeartbeats 1600000

namespace NobleChain

/-- Characters of the base64 alphabet used by the browser `btoa`. -/
def base64Chars : List Char :=
  "ABCDEFGHIJKLMNOPQRSTUVWXYZabcdefghijklmnopqrstuvwxyz0123456789+/".data

/-- Sextet value to base64 character. -/
def b64Char (n : Nat) : Char := base64Chars.getD n 'A'

/-- Base64-encode a byte list, three bytes at a time, with `=` padding. -/
def btoaBytes : List Nat → List Char
  | [] => []
  | [a] => [b64Char (a / 4), b64Char (a % 4 * 16), '=', '=']
  | [a, b] => [b64Char (a / 4), b64Char (a % 4 * 16 + b / 16), b64Char (b % 16 * 4), '=']
  | a :: b :: c :: rest =>
      b64Char (a / 4) :: b64Char (a % 4 * 16 + b / 16) ::
        b64Char (b % 16 * 4 + c / 64) :: b64Char (c % 64) :: btoaBytes rest

/-- Browser `btoa` on a Latin-1 string (code points reduced mod 256; the
engine only ever hashes ASCII passwords and 4-6 digit PINs, which are
within Latin-1). -/
def btoa (s : String) : String :=
  String.mk (btoaBytes (s.data.map fun c => c.toNat % 256))

/-- Source `hashPassword` (line 710):
`btoa(password).split('').reverse().join('')`. -/
def hashPassword (password : String) : String :=
  String.mk (btoa password).data.reverse

/-- JS object property read `m[k]` on a string-keyed object. -/
def getA {α : Type} : List (String × α) → String → Option α
  | [], _ => none
  | (k', v) :: rest, k => if k' = k then some v else getA rest k

/-- JS object property write `m[k] = v`: overwrite in place if the key is
present, append otherwise. -/
def setA {α : Type} : List (String × α) → String → α → List (String × α)
  | [], k, v => [(k, v)]
  | (k', v') :: rest, k, v =>
      if k' = k then (k, v) :: rest else (k', v') :: setA rest k v

/-- JS `delete m[k]` (object keys are unique, so removing every binding of
`k` coincides with JS behaviour on all states the engine can build). -/
def eraseA {α : Type} : List (String × α) → String → List (String × α)
  | [], _ => []
  | (k', v') :: rest, k =>
      if k' = k then eraseA rest k else (k', v') :: eraseA rest k

/-- JS `x || d` for an optional numeric expression: a missing value
(`undefined`) and the falsy number `0` both fall through to `d`. -/
def jsOr (x : Option ℚ) (d : ℚ) : ℚ :=
  match x with
  | some v => if v = 0 then d else v
  | none => d

/-- User record; of the source fields the modelled ledger operations read
only `id` and `username`. -/
structure User where
  id : String
  username : String
deriving DecidableEq, Repr

/-- One asset position: `{ balance, averageCost }` (lines 340, 367, 403). -/
structure AssetPosition where
  balance : ℚ
  averageCost : ℚ
deriving DecidableEq, Repr

/-- Wallet record created at signup (lines 54-59): a dollar balance plus a
string-keyed object of asset positions.  The derived `totalValue` display
field is elided. -/
structure Wallet where
  dollarBalance : ℚ
  assets : List (String × AssetPosition)
deriving DecidableEq, Repr

/-- PIN storage record (lines 76-81); `userId` is the storage key and
`createdAt`/`lastUpdated`/`resetBy` are timestamps/audit fields no claim
reads. -/
structure PinRecord where
  pinHash : Option String
  mustSetPin : Bool
deriving DecidableEq, Repr

/-- The transaction `type` strings used by the engine. -/
inductive TxType where
  | receive
  | send
  | buy
  | sell
  | swap
  | add_money
deriving DecidableEq, Repr

/-- Operation-specific `metadata` of a transaction (lines 450, 473, 508). -/
inductive TxMeta where
  | emptyMeta
  | buyMeta (cost price : ℚ)
  | sellMeta (proceeds price : ℚ)
  | swapMeta (toAsset : String) (toAmount rate : ℚ)
deriving DecidableEq, Repr

/-- Transaction record built by `createTransaction` (lines 527-549);
`timestamp` elided, `id` drawn from the fresh counter. -/
structure Transaction where
  id : Nat
  userId : String
  type : TxType
  asset : String
  amount : ℚ
  counterparty : Option String
  status : String
  metadata : TxMeta
deriving DecidableEq, Repr

/-- The exceptions the modelled operations can throw, one constructor per
`throw new Error(...)` message, plus `typeError` for the JS runtime crash
of reading a property of `undefined`/`null` (a user without a wallet). -/
inductive Err where
  | transferPinRequired
  | transferPinNotSet
  | invalidTransferPin
  | recipientNotFound
  | insufficientBalance
  | insufficientAssetBalance
  | insufficientUSDBalance
  | insufficientSourceAssetBalance
  | typeError
deriving DecidableEq, Repr

/-- The whole mutable state the modelled operations touch. -/
structure EngineState where
  users : List User
  wallets : List (String × Wallet)
  transactions : List Transaction
  pins : List (String × PinRecord)
  market : List (String × ℚ)
  adminLog : List (String × String × Bool)
  emails : List (String × String)
  notes : Nat
  nextId : Nat
deriving DecidableEq, Repr

/-- Source `getWallet(userId)` (lines 319-322): `wallets[userId] || null`. -/
def getWallet (s : EngineState) (uid : String) : Option Wallet :=
  getA s.wallets uid

/-- Source `this.marketData[assetId]?.price` (only the `price` field of the
market entries is ledger-relevant). -/
def marketPrice (s : EngineState) (assetId : String) : Option ℚ :=
  getA s.market assetId

/-- Source `createTransaction` (lines 527-549): builds the record, pushes
it onto `this.transactions`, and adds one UI notification. -/
def createTransaction (s : EngineState) (uid : String) (type : TxType) (asset : String)
    (amount : ℚ) (counterparty : Option String) (metadata : TxMeta) :
    EngineState × Transaction :=
  let tx : Transaction :=
    { id := s.nextId, userId := uid, type := type, asset := asset, amount := amount
      counterparty := counterparty, status := "completed", metadata := metadata }
  ({ s with transactions := s.transactions ++ [tx], nextId := s.nextId + 1,
            notes := s.notes + 1 }, tx)

/-- Source `createPinEntry(userId)` (lines 74-89): unconditionally stores a
fresh record with a null hash and `mustSetPin = true`. -/
def createPinEntry (s : EngineState) (uid : String) : EngineState × PinRecord :=
  let pinData : PinRecord := { pinHash := none, mustSetPin := true }
  ({ s with pins := setA s.pins uid pinData }, pinData)

/-- Source `verifyTransferPin(userId, pin)` (lines 125-152): throws if no
hash is stored, logs the attempt, emails a security notice and throws on
mismatch, returns `true` on match. -/
def verifyTransferPin (s : EngineState) (uid : String) (pin : String) :
    EngineState × Except Err Bool :=
  match (getA s.pins uid).bind (fun d => d.pinHash) with
  | none => (s, .error .transferPinNotSet)
  | some stored =>
    let pinHash := hashPassword pin
    let isValid : Bool := pinHash = stored
    let s1 := { s with adminLog := s.adminLog ++ [("pin_verification", uid, isValid)] }
    if isValid then (s1, .ok true)
    else ({ s1 with emails := s1.emails ++ [(uid, "pin_failed")] },
          .error .invalidTransferPin)

/-- Source `hasTransferPin(userId)` (lines 188-192):
`pinData && pinData.pinHash && !pinData.mustSetPin` (hashes produced by
`hashPassword` are nonempty, so JS truthiness of the hash is `isSome`). -/
def hasTransferPin (s : EngineState) (uid : String) : Bool :=
  match getA s.pins uid with
  | some d => d.pinHash.isSome && !d.mustSetPin
  | none => false

/-- The PIN gate snippet duplicated at the top of `sendMoney`
(lines 379-384) and `swapAssets` (lines 480-485).  JS `!pin` is true both
for an absent argument and for the falsy empty string. -/
def pinGate (s : EngineState) (uid : String) (pin : Option String) :
    EngineState × Except Err Unit :=
  if hasTransferPin s uid then
    match pin with
    | none => (s, .error .transferPinRequired)
    | some p =>
      if p = "" then (s, .error .transferPinRequired)
      else
        match verifyTransferPin s uid p with
        | (s1, .error e) => (s1, .error e)
        | (s1, .ok _) => (s1, .ok ())
  else (s, .ok ())

/-- The tail of `sendMoney` after both balance mutations (lines 408-429):
the `send`/`receive` transaction pair and the two email notifications. -/
def sendMoneyFinish (s : EngineState) (senderId : String) (recipient : User)
    (assetId : String) (amount : ℚ) :
    EngineState × Except Err (Transaction × Transaction) :=
  let senderName := ((s.users.find? fun u => u.id = senderId).map User.username).getD ""
  let r1 := createTransaction s senderId .send assetId amount (some recipient.username)
    .emptyMeta
  let r2 := createTransaction r1.1 recipient.id .receive assetId amount (some senderName)
    .emptyMeta
  ({ r2.1 with emails := r2.1.emails ++
      [(senderId, "transfer_sent"), (recipient.id, "transfer_received")] },
   .ok (r1.2, r2.2))

/-- Source `sendMoney(recipientUsername, amount, assetId, pin)`
(lines 377-430); `senderId` stands for `this.currentUser.id`.  Note the
faithful mutation order: the sender is debited before the recipient wallet
is read, so a recipient user without a wallet crashes after a partial
mutation, exactly as the JS does. -/
def sendMoney (s : EngineState) (senderId recipientUsername : String) (amount : ℚ)
    (assetId : String) (pin : Option String) :
    EngineState × Except Err (Transaction × Transaction) :=
  match pinGate s senderId pin with
  | (s0, .error e) => (s0, .error e)
  | (s0, .ok _) =>
    match s0.users.find? (fun u => u.username = recipientUsername) with
    | none => (s0, .error .recipientNotFound)
    | some recipient =>
      match getWallet s0 senderId with
      | none => (s0, .error .typeError)
      | some senderWallet =>
        if assetId = "USD" then
          if senderWallet.dollarBalance < amount then (s0, .error .insufficientBalance)
          else
            let sw1 := { senderWallet with
              dollarBalance := senderWallet.dollarBalance - amount }
            let s1 := { s0 with wallets := setA s0.wallets senderId sw1 }
            match getA s1.wallets recipient.id with
            | none => (s1, .error .typeError)
            | some rw =>
              let rw2 := { rw with dollarBalance := rw.dollarBalance + amount }
              let s2 := { s1 with wallets := setA s1.wallets recipient.id rw2 }
              sendMoneyFinish s2 senderId recipient assetId amount
        else
          match getA senderWallet.assets assetId with
          | none => (s0, .error .insufficientAssetBalance)
          | some asset =>
            if asset.balance < amount then (s0, .error .insufficientAssetBalance)
            else
              let asset1 := { asset with balance := asset.balance - amount }
              let sw1 := { senderWallet with
                assets := setA senderWallet.assets assetId asset1 }
              let s1 := { s0 with wallets := setA s0.wallets senderId sw1 }
              match getA s1.wallets recipient.id with
              | none => (s1, .error .typeError)
              | some rw =>
                let rw1 := match getA rw.assets assetId with
                  | none => { rw with assets := setA rw.assets assetId ⟨0, 0⟩ }
                  | some _ => rw
                let rpos := (getA rw1.assets assetId).getD ⟨0, 0⟩
                let rpos1 := { rpos with balance := rpos.balance + amount }
                let rw2 := { rw1 with assets := setA rw1.assets assetId rpos1 }
                let s2 := { s1 with wallets := setA s1.wallets recipient.id rw2 }
                sendMoneyFinish s2 senderId recipient assetId amount

/-- Source `buyAsset(assetId, amount, price)` (lines 432-453); `uid` stands
for `this.currentUser.id`.  The unit price resolves through the JS `||`
chain, the fiat debit happens before the position update, and the average
cost is the volume-weighted mean of the old lot and the new cost. -/
def buyAsset (s : EngineState) (uid assetId : String) (amount : ℚ) (price : Option ℚ) :
    EngineState × Except Err Transaction :=
  match getWallet s uid with
  | none => (s, .error .typeError)
  | some wallet =>
    let cost := jsOr price (jsOr (marketPrice s assetId) 0) * amount
    if wallet.dollarBalance < cost then (s, .error .insufficientUSDBalance)
    else
      let w1 := { wallet with dollarBalance := wallet.dollarBalance - cost }
      let w2 := match getA w1.assets assetId with
        | none => { w1 with assets := setA w1.assets assetId ⟨0, 0⟩ }
        | some _ => w1
      let asset := (getA w2.assets assetId).getD ⟨0, 0⟩
      let totalCost := asset.balance * asset.averageCost + cost
      let newBalance := asset.balance + amount
      let w3 := { w2 with assets := setA w2.assets assetId ⟨newBalance, totalCost / newBalance⟩ }
      let s1 := { s with wallets := setA s.wallets uid w3 }
      let r := createTransaction s1 uid .buy assetId amount none (.buyMeta cost (cost / amount))
      (r.1, .ok r.2)

/-- Source `sellAsset(assetId, amount, price)` (lines 455-476): debits the
position, credits fiat with the proceeds, and deletes the position exactly
when its balance reaches zero. -/
def sellAsset (s : EngineState) (uid assetId : String) (amount : ℚ) (price : Option ℚ) :
    EngineState × Except Err Transaction :=
  match getWallet s uid with
  | none => (s, .error .typeError)
  | some wallet =>
    match getA wallet.assets assetId with
    | none => (s, .error .insufficientAssetBalance)
    | some asset =>
      if asset.balance < amount then (s, .error .insufficientAssetBalance)
      else
        let salePrice := jsOr price (jsOr (marketPrice s assetId) 0)
        let proceeds := salePrice * amount
        let newBalance := asset.balance - amount
        let asset1 := { asset with balance := newBalance }
        let w1 := { wallet with
          dollarBalance := wallet.dollarBalance + proceeds
          assets := setA wallet.assets assetId asset1 }
        let w2 := if newBalance = 0 then { w1 with assets := eraseA w1.assets assetId } else w1
        let s1 := { s with wallets := setA s.wallets uid w2 }
        let r := createTransaction s1 uid .sell assetId amount none
          (.sellMeta proceeds salePrice)
        (r.1, .ok r.2)

/-- Source `swapAssets(fromAssetId, toAssetId, amount, pin)`
(lines 478-516).  The exhaustion check `fromAsset.balance === 0` reads the
live object after the credit, which matters when `fromAssetId` equals
`toAssetId`; the model reproduces that by re-reading the updated map. -/
def swapAssets (s : EngineState) (uid fromAssetId toAssetId : String) (amount : ℚ)
    (pin : Option String) : EngineState × Except Err Transaction :=
  match pinGate s uid pin with
  | (s0, .error e) => (s0, .error e)
  | (s0, .ok _) =>
    match getWallet s0 uid with
    | none => (s0, .error .typeError)
    | some wallet =>
      match getA wallet.assets fromAssetId with
      | none => (s0, .error .insufficientSourceAssetBalance)
      | some fromAsset =>
        if fromAsset.balance < amount then (s0, .error .insufficientSourceAssetBalance)
        else
          let fromPrice := jsOr (marketPrice s0 fromAssetId) 0
          let toPrice := jsOr (marketPrice s0 toAssetId) 0
          let toAmount := amount * fromPrice / toPrice
          let fromAsset1 := { fromAsset with balance := fromAsset.balance - amount }
          let w1 := { wallet with assets := setA wallet.assets fromAssetId fromAsset1 }
          let w2 := match getA w1.assets toAssetId with
            | none => { w1 with assets := setA w1.assets toAssetId ⟨0, 0⟩ }
            | some _ => w1
          let toPos := (getA w2.assets toAssetId).getD ⟨0, 0⟩
          let toPos1 := { toPos with balance := toPos.balance + toAmount }
          let w3 := { w2 with assets := setA w2.assets toAssetId toPos1 }
          let w4 := match getA w3.assets fromAssetId with
            | some fp => if fp.balance = 0 then { w3 with assets := eraseA w3.assets fromAssetId }
                         else w3
            | none => w3
          let s1 := { s0 with wallets := setA s0.wallets uid w4 }
          let r := createTransaction s1 uid .swap fromAssetId amount none
            (.swapMeta toAssetId toAmount (fromPrice / toPrice))
          (r.1, .ok r.2)

/-- Source `receiveMoney(amount, assetId)` (lines 360-375); `uid` stands
for `this.currentUser.id`. -/
def receiveMoney (s : EngineState) (uid : String) (amount : ℚ) (assetId : String) :
    EngineState × Except Err Transaction :=
  match getWallet s uid with
  | none => (s, .error .typeError)
  | some wallet =>
    let w1 :=
      if assetId = "USD" then
        { wallet with dollarBalance := wallet.dollarBalance + amount }
      else
        let wA := match getA wallet.assets assetId with
          | none => { wallet with assets := setA wallet.assets assetId ⟨0, 0⟩ }
          | some _ => wallet
        let pos := (getA wA.assets assetId).getD ⟨0, 0⟩
        { wA with assets := setA wA.assets assetId { pos with balance := pos.balance + amount } }
    let s1 := { s with wallets := setA s.wallets uid w1 }
    let r := createTransaction s1 uid .receive assetId amount (some "Internal Transfer")
      .emptyMeta
    (r.1, .ok r.2)

/-- Source `addMoney(amount)` (lines 518-525); `uid` stands for
`this.currentUser.id`.  Note: the source performs no check on `amount`. -/
def addMoney (s : EngineState) (uid : String) (amount : ℚ) :
    EngineState × Except Err Transaction :=
  match getWallet s uid with
  | none => (s, .error .typeError)
  | some wallet =>
    let w1 := { wallet with dollarBalance := wallet.dollarBalance + amount }
    let s1 := { s with wallets := setA s.wallets uid w1 }
    let r := createTransaction s1 uid .add_money "USD" amount (some "Noble Chain Support")
      .emptyMeta
    (r.1, .ok r.2)

/-- Source `updateUserBalance(userId, assetId, newBalance)` (lines 683-694),
the admin balance override the spec calls `adminSetBalance`: sets the
balance directly, appends no transaction. -/
def updateUserBalance (s : EngineState) (uid assetId : String) (newBalance : ℚ) :
    EngineState × Except Err Unit :=
  match getWallet s uid with
  | none => (s, .error .typeError)
  | some wallet =>
    let w1 :=
      if assetId = "USD" then { wallet with dollarBalance := newBalance }
      else
        let wA := match getA wallet.assets assetId with
          | none => { wallet with assets := setA wallet.assets assetId ⟨0, 0⟩ }
          | some _ => wallet
        let pos := (getA wA.assets assetId).getD ⟨0, 0⟩
        { wA with assets := setA wA.assets assetId { pos with balance := newBalance } }
    ({ s with wallets := setA s.wallets uid w1 }, .ok ())

/-- The balance the engine associates with `(uid, assetId)`: the fiat
`dollarBalance` for the `"USD"` asset, otherwise the balance of the asset
position (zero if the user or the position is absent). -/
def balanceOf (s : EngineState) (uid assetId : String) : ℚ :=
  match getWallet s uid with
  | none => 0
  | some w =>
    if assetId = "USD" then w.dollarBalance
    else ((getA w.assets assetId).map AssetPosition.balance).getD 0

/-- The balance of a non-fiat asset position (zero if absent). -/
def assetBalanceOf (s : EngineState) (uid assetId : String) : ℚ :=
  (((getWallet s uid).bind fun w => getA w.assets assetId).map AssetPosition.balance).getD 0

/-- The stored average cost of a non-fiat asset position (zero if absent,
matching the zero `averageCost` of a freshly created position). -/
def avgCostOf (s : EngineState) (uid assetId : String) : ℚ :=
  (((getWallet s uid).bind fun w => getA w.assets assetId).map AssetPosition.averageCost).getD 0

/-- Whether `assetId` occurs as a key of the positions map of `uid`. -/
def hasPosition (s : EngineState) (uid assetId : String) : Bool :=
  ((getWallet s uid).bind fun w => getA w.assets assetId).isSome

/-- One invocation of a ledger-engine operation, with all arguments. -/
inductive Op where
  | addMoneyOp (uid : String) (amount : ℚ)
  | receiveMoneyOp (uid : String) (amount : ℚ) (assetId : String)
  | sendMoneyOp (senderId recipientUsername : String) (amount : ℚ) (assetId : String)
      (pin : Option String)
  | buyAssetOp (uid assetId : String) (amount : ℚ) (price : Option ℚ)
  | sellAssetOp (uid assetId : String) (amount : ℚ) (price : Option ℚ)
  | swapAssetsOp (uid fromAssetId toAssetId : String) (amount : ℚ) (pin : Option String)
  | adminSetBalanceOp (uid assetId : String) (newBalance : ℚ)
deriving DecidableEq, Repr

/-- The state after one operation, whether it succeeded or threw (a throw
leaves the state the exception carried, as in the JS runtime). -/
def stepOp (s : EngineState) : Op → EngineState
  | .addMoneyOp uid a => (addMoney s uid a).1
  | .receiveMoneyOp uid a aid => (receiveMoney s uid a aid).1
  | .sendMoneyOp sid rn a aid pin => (sendMoney s sid rn a aid pin).1
  | .buyAssetOp uid aid a p => (buyAsset s uid aid a p).1
  | .sellAssetOp uid aid a p => (sellAsset s uid aid a p).1
  | .swapAssetsOp uid f t a pin => (swapAssets s uid f t a pin).1
  | .adminSetBalanceOp uid aid b => (updateUserBalance s uid aid b).1

/-- The state reached by a sequence of engine operations. -/
def runOps (s : EngineState) (ops : List Op) : EngineState :=
  ops.foldl stepOp s

/-- Non-negativity of one wallet: fiat balance and every position balance. -/
def walletNonneg (w : Wallet) : Prop :=
  0 ≤ w.dollarBalance ∧ ∀ p ∈ w.assets, 0 ≤ p.2.balance

/-- Non-negativity of every wallet of the state (claim C1's invariant). -/
def stateNonneg (s : EngineState) : Prop :=
  ∀ p ∈ s.wallets, walletNonneg p.2

/-- All oracle quotes are non-negative. -/
def marketNonneg (s : EngineState) : Prop :=
  ∀ p ∈ s.market, 0 ≤ p.2

/-- Non-negative operation arguments: the amount of every operation, the
explicit unit price of a sell, and the admin override balance.  (Buy needs
no price normativity for non-negativity: its fiat guard already bounds the
debit, whatever the cost.) -/
def opSafe : Op → Prop
  | .addMoneyOp _ a => 0 ≤ a
  | .receiveMoneyOp _ a _ => 0 ≤ a
  | .sendMoneyOp _ _ a _ _ => 0 ≤ a
  | .buyAssetOp _ _ a _ => 0 ≤ a
  | .sellAssetOp _ _ a p => 0 ≤ a ∧ ∀ q ∈ p, 0 ≤ q
  | .swapAssetsOp _ _ _ a _ => 0 ≤ a
  | .adminSetBalanceOp _ _ b => 0 ≤ b

/-- The position-presence invariant of claim C3: every listed position has
a strictly positive balance. -/
def positionsPositive (s : EngineState) : Prop :=
  ∀ p ∈ s.wallets, ∀ q ∈ p.2.assets, 0 < q.2.balance

/-- Every registered user has a wallet — established by `signup`
(lines 50-61), which pushes the user and creates the wallet together. -/
def usersHaveWallets (s : EngineState) : Prop :=
  ∀ u ∈ s.users, (getA s.wallets u.id).isSome

deriving instance DecidableEq for Except

instance decWalletNonneg (w : Wallet) : Decidable (walletNonneg w) := by
  unfold walletNonneg
  infer_instance

instance decStateNonneg (s : EngineState) : Decidable (stateNonneg s) := by
  unfold stateNonneg
  infer_instance

instance decMarketNonneg (s : EngineState) : Decidable (marketNonneg s) := by
  unfold marketNonneg
  infer_instance

instance decOpSafe (op : Op) : Decidable (opSafe op) := by
  cases op <;> (unfold opSafe; infer_instance)

instance decPositionsPositive (s : EngineState) : Decidable (positionsPositive s) := by
  unfold positionsPositive
  infer_instance

instance decUsersHaveWallets (s : EngineState) : Decidable (usersHaveWallets s) := by
  unfold usersHaveWallets
  infer_instance

/-- Concrete fixture: two registered users. -/
def exUsers : List User := [{ id := "A", username := "alice" }, { id := "B", username := "bob" }]

/-- Concrete fixture: alice's wallet, 100 fiat and 5 BTC at cost 10. -/
def exWalletA : Wallet := { dollarBalance := 100, assets := [("BTC", ⟨5, 10⟩)] }

/-- Concrete fixture: bob's wallet, 20 fiat, no positions. -/
def exWalletB : Wallet := { dollarBalance := 20, assets := [] }

/-- Concrete fixture: a small two-user state with a BTC/ETH market and no
configured PINs. -/
def exState : EngineState :=
  { users := exUsers
    wallets := [("A", exWalletA), ("B", exWalletB)]
    transactions := []
    pins := []
    market := [("BTC", 100), ("ETH", 50)]
    adminLog := []
    emails := []
    notes := 0
    nextId := 0 }

/-- Concrete fixture: `exState` with a configured transfer PIN for alice
(hash of the PIN 1234, `mustSetPin` cleared). -/
def exPinState : EngineState :=
  { exState with pins := [("A", { pinHash := some (hashPassword "1234"), mustSetPin := false })] }

/-- Equality of the ledger-relevant state components (everything except
the notification, email and admin-log sinks). -/
def FrameEq (s' s : EngineState) : Prop :=
  s'.users = s.users ∧ s'.wallets = s.wallets ∧ s'.transactions = s.transactions ∧
    s'.pins = s.pins ∧ s'.market = s.market

theorem frameEq_rfl (s : EngineState) : FrameEq s s := ⟨rfl, rfl, rfl, rfl, rfl⟩

theorem getA_setA_self {α : Type} (m : List (String × α)) (k : String) (v : α) :
    getA (setA m k v) k = some v := by
  induction m with
  | nil => simp [getA, setA]
  | cons hd tl ih =>
    obtain ⟨k', v'⟩ := hd
    by_cases h : k' = k <;> simp [getA, setA, h, ih]

theorem getA_setA_ne {α : Type} (m : List (String × α)) {k k' : String} (v : α)
    (h : k ≠ k') : getA (setA m k v) k' = getA m k' := by
  induction m with
  | nil => simp [getA, setA, h]
  | cons hd tl ih =>
    obtain ⟨k'', v''⟩ := hd
    by_cases h2 : k'' = k <;> simp [getA, setA, h, h2, ih]

theorem getA_mem {α : Type} {m : List (String × α)} {k : String} {v : α}
    (h : getA m k = some v) : (k, v) ∈ m := by
  induction m with
  | nil => simp [getA] at h
  | cons hd tl ih =>
    obtain ⟨k', v'⟩ := hd
    by_cases h2 : k' = k
    · subst h2
      simp [getA] at h
      simp [h]
    · simp only [getA, h2, if_false] at h
      exact List.mem_cons_of_mem _ (ih h)

theorem forall_setA {α : Type} {P : String × α → Prop} {m : List (String × α)}
    {k : String} {v : α} (hm : ∀ p ∈ m, P p) (hv : P (k, v)) :
    ∀ p ∈ setA m k v, P p := by
  induction m with
  | nil => simpa [setA] using hv
  | cons hd tl ih =>
    obtain ⟨k', v'⟩ := hd
    by_cases h2 : k' = k
    · simp only [setA, h2, if_true]
      intro p hp
      rcases List.mem_cons.mp hp with h | h
      · exact h ▸ hv
      · exact hm p (List.mem_cons_of_mem _ h)
    · simp only [setA, h2, if_false]
      intro p hp
      rcases List.mem_cons.mp hp with h | h
      · exact h ▸ hm (k', v') (List.mem_cons_self _ _)
      · exact ih (fun q hq => hm q (List.mem_cons_of_mem _ hq)) p h

theorem mem_eraseA {α : Type} {m : List (String × α)} {k : String} {p : String × α}
    (h : p ∈ eraseA m k) : p ∈ m := by
  induction m with
  | nil => simp [eraseA] at h
  | cons hd tl ih =>
    obtain ⟨k', v'⟩ := hd
    by_cases h2 : k' = k
    · simp only [eraseA, h2, if_true] at h
      exact List.mem_cons_of_mem _ (ih h)
    · simp only [eraseA, h2, if_false] at h
      rcases List.mem_cons.mp h with h3 | h3
      · exact h3 ▸ List.mem_cons_self _ _
      · exact List.mem_cons_of_mem _ (ih h3)

theorem getA_eraseA_self {α : Type} (m : List (String × α)) (k : String) :
    getA (eraseA m k) k = none := by
  induction m with
  | nil => simp [eraseA, getA]
  | cons hd tl ih =>
    obtain ⟨k', v'⟩ := hd
    by_cases h2 : k' = k <;> simp [eraseA, getA, h2, ih]

theorem getA_eraseA_ne {α : Type} (m : List (String × α)) {k k' : String}
    (h : k ≠ k') : getA (eraseA m k) k' = getA m k' := by
  induction m with
  | nil => simp [eraseA]
  | cons hd tl ih =>
    obtain ⟨k'', v''⟩ := hd
    by_cases h2 : k'' = k <;> by_cases h3 : k'' = k' <;>
      simp_all [eraseA, getA]

theorem isSome_getA_setA {α : Type} (m : List (String × α)) (k k' : String) (v : α)
    (h : (getA m k').isSome) : (getA (setA m k v) k').isSome := by
  by_cases h2 : k = k'
  · subst h2
    simp [getA_setA_self]
  · rwa [getA_setA_ne _ _ h2]

theorem jsOr_nonneg {x : Option ℚ} {d : ℚ} (hx : ∀ v ∈ x, 0 ≤ v) (hd : 0 ≤ d) :
    0 ≤ jsOr x d := by
  cases x with
  | none => simpa [jsOr] using hd
  | some v =>
    by_cases h : v = 0
    · simpa [jsOr, h] using hd
    · simpa [jsOr, h] using hx v rfl

theorem createTransaction_wallets (s : EngineState) (uid : String) (t : TxType)
    (a : String) (amt : ℚ) (c : Option String) (m : TxMeta) :
    (createTransaction s uid t a amt c m).1.wallets = s.wallets := rfl

theorem verifyTransferPin_frame (s : EngineState) (uid pin : String) :
    FrameEq (verifyTransferPin s uid pin).1 s := by
  unfold verifyTransferPin
  split
  · exact frameEq_rfl s
  · dsimp only
    split <;> exact ⟨rfl, rfl, rfl, rfl, rfl⟩

theorem pinGate_frame (s : EngineState) (uid : String) (pin : Option String) :
    FrameEq (pinGate s uid pin).1 s := by
  unfold pinGate
  split
  · split
    · exact frameEq_rfl s
    · split
      · exact frameEq_rfl s
      · rename_i p hne
        have hv := verifyTransferPin_frame s uid p
        split <;> rename_i heq <;> rw [heq] at hv <;> exact hv
  · exact frameEq_rfl s

theorem stateNonneg_of_frame {s' s : EngineState} (h : s'.wallets = s.wallets)
    (hs : stateNonneg s) : stateNonneg s' := by
  unfold stateNonneg
  rw [h]
  exact hs

theorem walletNonneg_setAsset {w : Wallet} {aid : String} {pos : AssetPosition}
    (hw : walletNonneg w) (hp : 0 ≤ pos.balance) :
    walletNonneg { w with assets := setA w.assets aid pos } :=
  ⟨hw.1, forall_setA hw.2 hp⟩

theorem walletNonneg_eraseAsset {w : Wallet} {aid : String} (hw : walletNonneg w) :
    walletNonneg { w with assets := eraseA w.assets aid } :=
  ⟨hw.1, fun p hp => hw.2 p (mem_eraseA hp)⟩

theorem posNonneg_of_getA {w : Wallet} {aid : String} {pos : AssetPosition}
    (hw : walletNonneg w) (h : getA w.assets aid = some pos) : 0 ≤ pos.balance :=
  hw.2 _ (getA_mem h)

theorem addMoney_stateNonneg {s : EngineState} {uid : String} {a : ℚ}
    (hs : stateNonneg s) (ha : 0 ≤ a) : stateNonneg (addMoney s uid a).1 := by
  unfold addMoney getWallet
  split
  · exact hs
  · rename_i wallet hw
    have hwNN := hs _ (getA_mem hw)
    exact forall_setA hs ⟨add_nonneg hwNN.1 ha, hwNN.2⟩

theorem receiveMoney_stateNonneg {s : EngineState} {uid aid : String} {a : ℚ}
    (hs : stateNonneg s) (ha : 0 ≤ a) : stateNonneg (receiveMoney s uid a aid).1 := by
  unfold receiveMoney getWallet
  split
  · exact hs
  · rename_i wallet hw
    have hwNN := hs _ (getA_mem hw)
    by_cases hUSD : aid = "USD"
    · simp only [hUSD, if_true]
      exact forall_setA hs ⟨add_nonneg hwNN.1 ha, hwNN.2⟩
    · simp only [hUSD, if_false]
      split
      · rename_i hnone
        refine forall_setA hs (walletNonneg_setAsset ?_ ?_)
        · exact ⟨hwNN.1, forall_setA hwNN.2 (le_refl 0)⟩
        · have : getA (setA wallet.assets aid (⟨0, 0⟩ : AssetPosition)) aid =
              some ⟨0, 0⟩ := getA_setA_self _ _ _
          simp only [this, Option.getD_some]
          exact add_nonneg (le_refl 0) ha
      · rename_i pos hpos
        refine forall_setA hs (walletNonneg_setAsset hwNN ?_)
        simp only [hpos, Option.getD_some]
        exact add_nonneg (posNonneg_of_getA hwNN hpos) ha

theorem updateUserBalance_stateNonneg {s : EngineState} {uid aid : String} {b : ℚ}
    (hs : stateNonneg s) (hb : 0 ≤ b) : stateNonneg (updateUserBalance s uid aid b).1 := by
  unfold updateUserBalance getWallet
  split
  · exact hs
  · rename_i wallet hw
    have hwNN := hs _ (getA_mem hw)
    by_cases hUSD : aid = "USD"
    · simp only [hUSD, if_true]
      exact forall_setA hs ⟨hb, hwNN.2⟩
    · simp only [hUSD, if_false]
      split
      · refine forall_setA hs (walletNonneg_setAsset ?_ hb)
        exact ⟨hwNN.1, forall_setA hwNN.2 (le_refl 0)⟩
      · exact forall_setA hs (walletNonneg_setAsset hwNN hb)

theorem forall_eraseA {α : Type} {P : String × α → Prop} {m : List (String × α)}
    {k : String} (hm : ∀ p ∈ m, P p) : ∀ p ∈ eraseA m k, P p :=
  fun p hp => hm p (mem_eraseA hp)

theorem balance_nonneg_of_getA {m : List (String × AssetPosition)} {aid : String}
    {pos : AssetPosition} (hm : ∀ p ∈ m, 0 ≤ p.2.balance)
    (h : getA m aid = some pos) : 0 ≤ pos.balance :=
  hm _ (getA_mem h)

theorem balance_getD_nonneg {m : List (String × AssetPosition)}
    (hm : ∀ p ∈ m, 0 ≤ p.2.balance) (aid : String) :
    0 ≤ ((getA m aid).getD ⟨0, 0⟩).balance := by
  cases h : getA m aid with
  | none => simp
  | some pos => simpa using balance_nonneg_of_getA hm h

theorem marketPrice_nonneg {s : EngineState} {aid : String} (hm : marketNonneg s) :
    ∀ v ∈ marketPrice s aid, 0 ≤ v :=
  fun _ hv => hm _ (getA_mem hv)

theorem walletNonneg_mk {d : ℚ} {m : List (String × AssetPosition)} (hd : 0 ≤ d)
    (hm : ∀ p ∈ m, 0 ≤ p.2.balance) : walletNonneg { dollarBalance := d, assets := m } :=
  ⟨hd, hm⟩

theorem walletNonneg_of_getA {m : List (String × Wallet)} {k : String} {w : Wallet}
    (h : getA m k = some w) (hm : ∀ p ∈ m, walletNonneg p.2) : walletNonneg w :=
  hm _ (getA_mem h)

theorem buyAsset_stateNonneg {s : EngineState} {uid aid : String} {a : ℚ} {pr : Option ℚ}
    (hs : stateNonneg s) (ha : 0 ≤ a) : stateNonneg (buyAsset s uid aid a pr).1 := by
  unfold buyAsset getWallet
  split
  · exact hs
  · rename_i wallet hw
    dsimp only
    split
    · exact hs
    · rename_i hguard
      have hwNN := hs _ (getA_mem hw)
      have hfiat : 0 ≤ wallet.dollarBalance - jsOr pr (jsOr (marketPrice s aid) 0) * a :=
        sub_nonneg.mpr (not_lt.mp hguard)
      split
      · exact forall_setA hs
          ⟨hfiat, forall_setA (forall_setA hwNN.2 (le_refl 0))
            (add_nonneg (balance_getD_nonneg (forall_setA hwNN.2 (le_refl 0)) aid) ha)⟩
      · exact forall_setA hs
          ⟨hfiat, forall_setA hwNN.2
            (add_nonneg (balance_getD_nonneg hwNN.2 aid) ha)⟩

theorem sellAsset_stateNonneg {s : EngineState} {uid aid : String} {a : ℚ} {pr : Option ℚ}
    (hs : stateNonneg s) (ha : 0 ≤ a) (hpr : ∀ q ∈ pr, 0 ≤ q) (hmkt : marketNonneg s) :
    stateNonneg (sellAsset s uid aid a pr).1 := by
  unfold sellAsset getWallet
  split
  · exact hs
  · rename_i wallet hw
    split
    · exact hs
    · rename_i asset hpos
      split
      · exact hs
      · rename_i hguard
        have hwNN := hs _ (getA_mem hw)
        have hproc : 0 ≤ jsOr pr (jsOr (marketPrice s aid) 0) * a :=
          mul_nonneg (jsOr_nonneg hpr (jsOr_nonneg (marketPrice_nonneg hmkt) (le_refl 0))) ha
        have hbal : 0 ≤ asset.balance - a := sub_nonneg.mpr (not_lt.mp hguard)
        dsimp only
        split
        · exact forall_setA hs
            ⟨add_nonneg hwNN.1 hproc, forall_eraseA (forall_setA hwNN.2 hbal)⟩
        · exact forall_setA hs
            ⟨add_nonneg hwNN.1 hproc, forall_setA hwNN.2 hbal⟩

theorem swapAssets_stateNonneg {s : EngineState} {uid f t : String} {a : ℚ}
    {pin : Option String} (hs : stateNonneg s) (ha : 0 ≤ a) (hmkt : marketNonneg s) :
    stateNonneg (swapAssets s uid f t a pin).1 := by
  unfold swapAssets getWallet
  have hpg := pinGate_frame s uid pin
  split
  · rename_i s0 e heq
    rw [heq] at hpg
    exact stateNonneg_of_frame hpg.2.1 hs
  · rename_i s0 u heq
    rw [heq] at hpg
    have hs0 : stateNonneg s0 := stateNonneg_of_frame hpg.2.1 hs
    have hm0 : marketNonneg s0 := by
      unfold marketNonneg
      rw [hpg.2.2.2.2]
      exact hmkt
    split
    · exact hs0
    · rename_i wallet hw
      split
      · exact hs0
      · rename_i fromAsset hfa
        split
        · exact hs0
        · rename_i hguard
          have hwNN := hs0 _ (getA_mem hw)
          have hfrom : 0 ≤ fromAsset.balance - a := sub_nonneg.mpr (not_lt.mp hguard)
          have htoAmt : 0 ≤ a * jsOr (marketPrice s0 f) 0 / jsOr (marketPrice s0 t) 0 :=
            div_nonneg
              (mul_nonneg ha (jsOr_nonneg (marketPrice_nonneg hm0) (le_refl 0)))
              (jsOr_nonneg (marketPrice_nonneg hm0) (le_refl 0))
          dsimp only
          repeat' split
          all_goals refine forall_setA hs0 (walletNonneg_mk hwNN.1 ?_)
          all_goals
            repeat
              first
              | exact hwNN.2
              | exact hfrom
              | exact le_refl 0
              | apply forall_eraseA
              | refine add_nonneg (balance_getD_nonneg ?_ _) htoAmt
              | refine forall_setA ?_ ?_

theorem sendMoney_stateNonneg {s : EngineState} {sid rn aid : String} {a : ℚ}
    {pin : Option String} (hs : stateNonneg s) (ha : 0 ≤ a) :
    stateNonneg (sendMoney s sid rn a aid pin).1 := by
  unfold sendMoney getWallet
  have hpg := pinGate_frame s sid pin
  split
  · rename_i s0 e heq
    rw [heq] at hpg
    exact stateNonneg_of_frame hpg.2.1 hs
  · rename_i s0 u heq
    rw [heq] at hpg
    have hs0 : stateNonneg s0 := stateNonneg_of_frame hpg.2.1 hs
    split
    · exact hs0
    · rename_i recipient hrec
      split
      · exact hs0
      · rename_i senderWallet hw
        have hwNN := hs0 _ (getA_mem hw)
        split
        · -- the USD branch
          dsimp only
          split
          · exact hs0
          · rename_i hguard
            have hsw1 : 0 ≤ senderWallet.dollarBalance - a := sub_nonneg.mpr (not_lt.mp hguard)
            split
            · exact forall_setA hs0 (walletNonneg_mk hsw1 hwNN.2)
            · rename_i rw hrw
              have hrwNN := walletNonneg_of_getA hrw
                (forall_setA hs0 (walletNonneg_mk hsw1 hwNN.2))
              exact forall_setA (forall_setA hs0 (walletNonneg_mk hsw1 hwNN.2))
                (walletNonneg_mk (add_nonneg hrwNN.1 ha) hrwNN.2)
        · -- the non-USD asset branch
          split
          · exact hs0
          · rename_i asset hpos
            dsimp only
            split
            · exact hs0
            · rename_i hguard
              have hbal : 0 ≤ asset.balance - a := sub_nonneg.mpr (not_lt.mp hguard)
              split
              · refine forall_setA hs0 (walletNonneg_mk hwNN.1 (forall_setA hwNN.2 ?_))
                exact hbal
              · rename_i rw hrw
                have hrwNN := walletNonneg_of_getA hrw
                  (forall_setA hs0 (walletNonneg_mk hwNN.1 (forall_setA hwNN.2 hbal)))
                split
                · refine forall_setA
                    (forall_setA hs0 (walletNonneg_mk hwNN.1 (forall_setA hwNN.2 ?_)))
                    (walletNonneg_mk hrwNN.1 (forall_setA (forall_setA hrwNN.2 (le_refl 0))
                      (add_nonneg (balance_getD_nonneg
                        (forall_setA hrwNN.2 (le_refl 0)) aid) ha)))
                  exact hbal
                · refine forall_setA
                    (forall_setA hs0 (walletNonneg_mk hwNN.1 (forall_setA hwNN.2 ?_)))
                    (walletNonneg_mk hrwNN.1 (forall_setA hrwNN.2
                      (add_nonneg (balance_getD_nonneg hrwNN.2 aid) ha)))
                  exact hbal

theorem addMoney_market (s : EngineState) (uid : String) (a : ℚ) :
    (addMoney s uid a).1.market = s.market := by
  unfold addMoney getWallet
  split <;> rfl

theorem receiveMoney_market (s : EngineState) (uid : String) (a : ℚ) (aid : String) :
    (receiveMoney s uid a aid).1.market = s.market := by
  unfold receiveMoney getWallet
  split <;> rfl

theorem updateUserBalance_market (s : EngineState) (uid aid : String) (b : ℚ) :
    (updateUserBalance s uid aid b).1.market = s.market := by
  unfold updateUserBalance getWallet
  split <;> rfl

theorem buyAsset_market (s : EngineState) (uid aid : String) (a : ℚ) (pr : Option ℚ) :
    (buyAsset s uid aid a pr).1.market = s.market := by
  unfold buyAsset getWallet
  split
  · rfl
  · dsimp only
    split <;> rfl

theorem sellAsset_market (s : EngineState) (uid aid : String) (a : ℚ) (pr : Option ℚ) :
    (sellAsset s uid aid a pr).1.market = s.market := by
  unfold sellAsset getWallet
  repeat' split
  all_goals rfl

theorem swapAssets_market (s : EngineState) (uid f t : String) (a : ℚ)
    (pin : Option String) : (swapAssets s uid f t a pin).1.market = s.market := by
  unfold swapAssets getWallet
  have hpg := pinGate_frame s uid pin
  split
  · rename_i s0 e heq
    rw [heq] at hpg
    exact hpg.2.2.2.2
  · rename_i s0 u heq
    rw [heq] at hpg
    dsimp only
    repeat' split
    all_goals exact hpg.2.2.2.2

theorem sendMoney_market (s : EngineState) (sid rn : String) (a : ℚ) (aid : String)
    (pin : Option String) : (sendMoney s sid rn a aid pin).1.market = s.market := by
  unfold sendMoney getWallet
  have hpg := pinGate_frame s sid pin
  split
  · rename_i s0 e heq
    rw [heq] at hpg
    exact hpg.2.2.2.2
  · rename_i s0 u heq
    rw [heq] at hpg
    dsimp only
    repeat' split
    all_goals exact hpg.2.2.2.2

theorem stepOp_market (s : EngineState) (op : Op) : (stepOp s op).market = s.market := by
  cases op with
  | addMoneyOp uid a => exact addMoney_market s uid a
  | receiveMoneyOp uid a aid => exact receiveMoney_market s uid a aid
  | sendMoneyOp sid rn a aid pin => exact sendMoney_market s sid rn a aid pin
  | buyAssetOp uid aid a p => exact buyAsset_market s uid aid a p
  | sellAssetOp uid aid a p => exact sellAsset_market s uid aid a p
  | swapAssetsOp uid f t a pin => exact swapAssets_market s uid f t a pin
  | adminSetBalanceOp uid aid b => exact updateUserBalance_market s uid aid b

theorem stepOp_stateNonneg {s : EngineState} {op : Op} (hs : stateNonneg s)
    (hm : marketNonneg s) (hop : opSafe op) : stateNonneg (stepOp s op) := by
  cases op with
  | addMoneyOp uid a => exact addMoney_stateNonneg hs hop
  | receiveMoneyOp uid a aid => exact receiveMoney_stateNonneg hs hop
  | sendMoneyOp sid rn a aid pin => exact sendMoney_stateNonneg hs hop
  | buyAssetOp uid aid a p => exact buyAsset_stateNonneg hs hop
  | sellAssetOp uid aid a p => exact sellAsset_stateNonneg hs hop.1 hop.2 hm
  | swapAssetsOp uid f t a pin => exact swapAssets_stateNonneg hs hop hm
  | adminSetBalanceOp uid aid b => exact updateUserBalance_stateNonneg hs hop

/-- C1, counterexample: the non-negativity invariant as claimed is false —
from the non-negative state `exState`, the single engine operation
`addMoney("A", -200)` (which the source accepts without any validation,
lines 518-525) drives alice's `fiatBalance` to `-100 < 0`. -/
theorem C1_counterexample :
    stateNonneg exState ∧ marketNonneg exState ∧
      ¬ stateNonneg (runOps exState [Op.addMoneyOp "A" (-200)]) := by
  refine ⟨by decide, by decide, ?_⟩
  norm_num [stateNonneg, walletNonneg, runOps, stepOp, addMoney, getWallet, getA, setA,
    createTransaction, exState, exUsers, exWalletA, exWalletB, List.foldl]

/-- C1, amended: in every state reachable by a sequence of engine
operations whose amount arguments are non-negative (and whose explicit
sell prices and admin override balances are non-negative), starting from a
state with non-negative balances and non-negative oracle quotes, every
fiat balance and every asset position balance is non-negative. -/
theorem C1_nonneg_invariant (s0 : EngineState) (ops : List Op)
    (h0 : stateNonneg s0) (hmkt : marketNonneg s0) (hops : ∀ op ∈ ops, opSafe op) :
    stateNonneg (runOps s0 ops) := by
  induction ops generalizing s0 with
  | nil => simpa [runOps] using h0
  | cons op rest ih =>
    have h1 := stepOp_stateNonneg h0 hmkt (hops op (List.mem_cons_self _ _))
    have hm1 : marketNonneg (stepOp s0 op) := by
      unfold marketNonneg
      rw [stepOp_market]
      exact hmkt
    have h2 := ih (stepOp s0 op) h1 hm1 (fun o ho => hops o (List.mem_cons_of_mem _ ho))
    simpa [runOps] using h2

/-- C1 witness: the amended invariant evaluated on a concrete run touching
every operation class. -/
theorem C1_nonneg_invariant_witness :
    stateNonneg (runOps exState
      [Op.addMoneyOp "A" 5, Op.buyAssetOp "A" "ETH" 2 (some 10),
       Op.sendMoneyOp "A" "bob" 3 "USD" none, Op.sellAssetOp "A" "BTC" 5 none,
       Op.swapAssetsOp "A" "ETH" "BTC" 1 none, Op.adminSetBalanceOp "B" "USD" 7,
       Op.receiveMoneyOp "B" 4 "ETH"]) :=
  C1_nonneg_invariant exState _ (by decide) (by decide) (by decide)

/-- C5, counterexample: `addMoney` does not validate its amount — with
`amount = -5 ≤ 0` it succeeds (no `ValidationError`), debits the balance
from 100 to 95 and still appends an `add_money` transaction. -/
theorem C5_counterexample :
    (addMoney exState "A" (-5)).2 =
      Except.ok { id := 0, userId := "A", type := TxType.add_money, asset := "USD",
                  amount := -5, counterparty := some "Noble Chain Support",
                  status := "completed", metadata := TxMeta.emptyMeta } ∧
    balanceOf (addMoney exState "A" (-5)).1 "A" "USD" = 95 := by
  constructor
  · decide
  · norm_num [balanceOf, getWallet, addMoney, createTransaction, getA, setA, exState,
      exWalletA, exWalletB, exUsers]

/-- C5, amended: `addMoney(userId, amount)` performs no validation at all:
for every amount (positive or not) it succeeds, credits `fiatBalance` by
exactly `amount`, and appends exactly one `add_money` transaction with the
fixed counterparty label `Noble Chain Support`. -/
theorem C5_addMoney_behaviour (s : EngineState) (uid : String) (a : ℚ) (wallet : Wallet)
    (hw : getA s.wallets uid = some wallet) :
    addMoney s uid a =
      ({ s with
          wallets := setA s.wallets uid
            { wallet with dollarBalance := wallet.dollarBalance + a },
          transactions := s.transactions ++
            [{ id := s.nextId, userId := uid, type := TxType.add_money, asset := "USD",
               amount := a, counterparty := some "Noble Chain Support",
               status := "completed", metadata := TxMeta.emptyMeta }],
          nextId := s.nextId + 1, notes := s.notes + 1 },
       Except.ok
         { id := s.nextId, userId := uid, type := TxType.add_money, asset := "USD",
           amount := a, counterparty := some "Noble Chain Support",
           status := "completed", metadata := TxMeta.emptyMeta }) := by
  unfold addMoney getWallet
  rw [hw]
  rfl

/-- C5 witness: the amended description evaluated at `amount = -5` on the
concrete fixture. -/
theorem C5_addMoney_behaviour_witness :
    addMoney exState "A" (-5) =
      ({ exState with
          wallets := setA exState.wallets "A"
            { exWalletA with dollarBalance := exWalletA.dollarBalance + (-5) },
          transactions :=
            [{ id := 0, userId := "A", type := TxType.add_money, asset := "USD",
               amount := -5, counterparty := some "Noble Chain Support",
               status := "completed", metadata := TxMeta.emptyMeta }],
          nextId := 1, notes := 1 },
       Except.ok
         { id := 0, userId := "A", type := TxType.add_money, asset := "USD",
           amount := -5, counterparty := some "Noble Chain Support",
           status := "completed", metadata := TxMeta.emptyMeta }) :=
  C5_addMoney_behaviour exState "A" (-5) exWalletA (by decide)

/-- C10: `createPinEntry(userId)` unconditionally stores a fresh record
with `pinHash = null` and `mustSetPin = true`, overwriting any existing
record for that user, leaving all other PIN records, all wallets, the
transaction log, the email sink and the notification counter untouched
(so a user with an active PIN is silently returned to the must-set state
with no notification). -/
theorem C10_createPinEntry_overwrites (s : EngineState) (uid : String) :
    getA (createPinEntry s uid).1.pins uid =
      some { pinHash := none, mustSetPin := true } ∧
    (∀ uid2, uid2 ≠ uid → getA (createPinEntry s uid).1.pins uid2 = getA s.pins uid2) ∧
    (createPinEntry s uid).1.emails = s.emails ∧
    (createPinEntry s uid).1.notes = s.notes ∧
    (createPinEntry s uid).1.wallets = s.wallets ∧
    (createPinEntry s uid).1.transactions = s.transactions ∧
    (createPinEntry s uid).2 = { pinHash := none, mustSetPin := true } := by
  refine ⟨getA_setA_self _ _ _, ?_, rfl, rfl, rfl, rfl, rfl⟩
  intro uid2 hne
  exact getA_setA_ne _ _ (fun h => hne h.symm)

/-- C10 witness: overwriting alice's active PIN record in `exPinState`
discards the stored hash, while bob's (absent) record stays absent. -/
theorem C10_createPinEntry_overwrites_witness :
    getA (createPinEntry exPinState "A").1.pins "A" =
      some { pinHash := none, mustSetPin := true } ∧
    getA (createPinEntry exPinState "A").1.pins "B" = getA exPinState.pins "B" :=
  ⟨(C10_createPinEntry_overwrites exPinState "A").1,
   (C10_createPinEntry_overwrites exPinState "A").2.1 "B" (by decide)⟩

/-- C8: PIN verification is read-only and deterministic — for a user whose
record has `mustSetPin = false` and a stored hash, `verify` with the
correct PIN (one hashing to the stored hash) returns success; no call to
`verify` ever mutates the PIN store, any wallet, or the transaction log;
with no stored hash it fails with the `Transfer PIN not set` error, and
with a mismatching PIN it fails with the `Invalid Transfer PIN` error. -/
theorem C8_verify_readonly (s : EngineState) (uid : String) :
    (∀ rec stored pin, getA s.pins uid = some rec → rec.mustSetPin = false →
        rec.pinHash = some stored → hashPassword pin = stored →
        (verifyTransferPin s uid pin).2 = Except.ok true)
  ∧ (∀ pin, (verifyTransferPin s uid pin).1.pins = s.pins ∧
        (verifyTransferPin s uid pin).1.wallets = s.wallets ∧
        (verifyTransferPin s uid pin).1.transactions = s.transactions)
  ∧ ((getA s.pins uid).bind (fun d => d.pinHash) = none →
      ∀ pin, verifyTransferPin s uid pin = (s, Except.error Err.transferPinNotSet))
  ∧ (∀ rec stored pin, getA s.pins uid = some rec → rec.pinHash = some stored →
        hashPassword pin ≠ stored →
        (verifyTransferPin s uid pin).2 = Except.error Err.invalidTransferPin) := by
  refine ⟨?_, ?_, ?_, ?_⟩
  · intro rec stored pin hrec hmust hhash hmatch
    unfold verifyTransferPin
    have hb : (getA s.pins uid).bind (fun d => d.pinHash) = some stored := by
      rw [hrec]
      simpa using hhash
    rw [hb]
    simp [hmatch]
  · intro pin
    have hf := verifyTransferPin_frame s uid pin
    exact ⟨hf.2.2.2.1, hf.2.1, hf.2.2.1⟩
  · intro hnone pin
    unfold verifyTransferPin
    rw [hnone]
  · intro rec stored pin hrec hhash hne
    unfold verifyTransferPin
    have hb : (getA s.pins uid).bind (fun d => d.pinHash) = some stored := by
      rw [hrec]
      simpa using hhash
    rw [hb]
    simp [hne]

/-- C8 witness: on the fixture with alice's stored hash of PIN 1234,
verification with 1234 succeeds, with 9999 fails as invalid, never touches
the PIN store, and fails as not-set for bob, who has no record. -/
theorem C8_verify_readonly_witness :
    (verifyTransferPin exPinState "A" "1234").2 = Except.ok true ∧
    (verifyTransferPin exPinState "A" "9999").2 = Except.error Err.invalidTransferPin ∧
    (verifyTransferPin exPinState "A" "9999").1.pins = exPinState.pins ∧
    verifyTransferPin exPinState "B" "1234" =
      (exPinState, Except.error Err.transferPinNotSet) :=
  ⟨(C8_verify_readonly exPinState "A").1
      { pinHash := some (hashPassword "1234"), mustSetPin := false }
      (hashPassword "1234") "1234" (by decide) rfl rfl rfl,
   (C8_verify_readonly exPinState "A").2.2.2
      { pinHash := some (hashPassword "1234"), mustSetPin := false }
      (hashPassword "1234") "9999" (by decide) rfl (by decide),
   ((C8_verify_readonly exPinState "A").2.1 "9999").1,
   (C8_verify_readonly exPinState "B").2.2.1 (by decide) "1234"⟩

/-- C7: the PIN gate of `sendMoney` — for a sender the vault reports as
PIN-configured, an absent `pin` fails with the `Transfer PIN required`
error before anything happens, and a present but mismatching `pin` fails
with the vault's `Invalid Transfer PIN` error with no wallet or
transaction change; for a sender who is not PIN-configured no PIN error
can ever be produced, whatever the `pin` argument. -/
theorem C7_pin_gate (s : EngineState) (sid rn aid : String) (a : ℚ) :
    (hasTransferPin s sid = true →
      sendMoney s sid rn a aid none = (s, Except.error Err.transferPinRequired) ∧
      (∀ p rec stored, getA s.pins sid = some rec → rec.pinHash = some stored →
        hashPassword p ≠ stored → p ≠ "" →
        (sendMoney s sid rn a aid (some p)).2 = Except.error Err.invalidTransferPin ∧
        (sendMoney s sid rn a aid (some p)).1.wallets = s.wallets ∧
        (sendMoney s sid rn a aid (some p)).1.transactions = s.transactions))
  ∧ (hasTransferPin s sid = false →
      ∀ pin, (sendMoney s sid rn a aid pin).2 ≠ Except.error Err.transferPinRequired ∧
        (sendMoney s sid rn a aid pin).2 ≠ Except.error Err.invalidTransferPin ∧
        (sendMoney s sid rn a aid pin).2 ≠ Except.error Err.transferPinNotSet) := by
  constructor
  · intro hpin
    constructor
    · have hgate : pinGate s sid none = (s, Except.error Err.transferPinRequired) := by
        unfold pinGate
        rw [hpin]
        rfl
      unfold sendMoney
      rw [hgate]
    · intro p rec stored hrec hhash hne hnil
      have hb : (getA s.pins sid).bind (fun d => d.pinHash) = some stored := by
        rw [hrec]
        simpa using hhash
      have hver : verifyTransferPin s sid p =
          ({ s with
              adminLog := s.adminLog ++ [("pin_verification", sid, false)],
              emails := s.emails ++ [(sid, "pin_failed")] },
           Except.error Err.invalidTransferPin) := by
        unfold verifyTransferPin
        rw [hb]
        simp [hne]
      have hgate : pinGate s sid (some p) =
          ({ s with
              adminLog := s.adminLog ++ [("pin_verification", sid, false)],
              emails := s.emails ++ [(sid, "pin_failed")] },
           Except.error Err.invalidTransferPin) := by
        unfold pinGate
        rw [hpin, if_pos rfl]
        dsimp only
        rw [if_neg hnil, hver]
      unfold sendMoney
      rw [hgate]
      exact ⟨rfl, rfl, rfl⟩
  · intro hpin pin
    have hgate : pinGate s sid pin = (s, Except.ok ()) := by
      unfold pinGate
      rw [hpin]
      rfl
    unfold sendMoney
    rw [hgate]
    dsimp only
    repeat' split
    all_goals simp [sendMoneyFinish]

/-- C7 witness: on the fixture with alice PIN-configured, a missing PIN is
rejected, a wrong PIN propagates the invalid-PIN error without touching
wallets, and bob (not configured) never hits a PIN error. -/
theorem C7_pin_gate_witness :
    sendMoney exPinState "A" "bob" 5 "USD" none =
      (exPinState, Except.error Err.transferPinRequired) ∧
    (sendMoney exPinState "A" "bob" 5 "USD" (some "9999")).2 =
      Except.error Err.invalidTransferPin ∧
    (sendMoney exPinState "A" "bob" 5 "USD" (some "9999")).1.wallets =
      exPinState.wallets ∧
    (sendMoney exPinState "B" "alice" 5 "USD" none).2 ≠
      Except.error Err.transferPinRequired :=
  ⟨((C7_pin_gate exPinState "A" "bob" "USD" 5).1 (by decide)).1,
   (((C7_pin_gate exPinState "A" "bob" "USD" 5).1 (by decide)).2 "9999"
      { pinHash := some (hashPassword "1234"), mustSetPin := false }
      (hashPassword "1234") (by decide) rfl (by decide) (by decide)).1,
   (((C7_pin_gate exPinState "A" "bob" "USD" 5).1 (by decide)).2 "9999"
      { pinHash := some (hashPassword "1234"), mustSetPin := false }
      (hashPassword "1234") (by decide) rfl (by decide) (by decide)).2.1,
   ((C7_pin_gate exPinState "B" "alice" "USD" 5).2 (by decide) none).1⟩

/-- C4: all-or-nothing on error — in a state where every registered user
has a wallet (the invariant `signup` establishes, lines 50-61), whenever
`sendMoney`, `buyAsset`, `sellAsset` or `swapAssets` throws any error, no
wallet changes and no transaction is appended.  (The PIN vault's attempt
log and the security-email sink may record the rejected attempt; the
claim is about balances and the ledger.) -/
theorem C4_atomic_on_error (s : EngineState) (hw : usersHaveWallets s) :
    (∀ sid rn a aid pin s' e, sendMoney s sid rn a aid pin = (s', Except.error e) →
        s'.wallets = s.wallets ∧ s'.transactions = s.transactions)
  ∧ (∀ uid aid a pr s' e, buyAsset s uid aid a pr = (s', Except.error e) →
        s'.wallets = s.wallets ∧ s'.transactions = s.transactions)
  ∧ (∀ uid aid a pr s' e, sellAsset s uid aid a pr = (s', Except.error e) →
        s'.wallets = s.wallets ∧ s'.transactions = s.transactions)
  ∧ (∀ uid f t a pin s' e, swapAssets s uid f t a pin = (s', Except.error e) →
        s'.wallets = s.wallets ∧ s'.transactions = s.transactions) := by
  refine ⟨?_, ?_, ?_, ?_⟩
  · intro sid rn a aid pin s' e h
    unfold sendMoney getWallet at h
    have hpg := pinGate_frame s sid pin
    split at h
    · rename_i s0 e0 heq
      rw [heq] at hpg
      injection h with h1 h2
      subst h1
      exact ⟨hpg.2.1, hpg.2.2.1⟩
    · rename_i s0 u heq
      rw [heq] at hpg
      split at h
      · injection h with h1 h2
        subst h1
        exact ⟨hpg.2.1, hpg.2.2.1⟩
      · rename_i recipient hfind
        have hrecmem : recipient ∈ s.users := by
          rw [hpg.1] at hfind
          exact List.mem_of_find?_eq_some hfind
        have hrws := hw recipient hrecmem
        split at h
        · injection h with h1 h2
          subst h1
          exact ⟨hpg.2.1, hpg.2.2.1⟩
        · rename_i senderWallet hsw
          split at h
          · -- USD branch
            dsimp only at h
            split at h
            · injection h with h1 h2
              subst h1
              exact ⟨hpg.2.1, hpg.2.2.1⟩
            · split at h
              · rename_i hnone
                rw [hpg.2.1] at hnone
                by_cases hids : sid = recipient.id
                · rw [← hids, getA_setA_self] at hnone
                  exact Option.noConfusion hnone
                · rw [getA_setA_ne _ _ hids] at hnone
                  rw [hnone] at hrws
                  simp at hrws
              · unfold sendMoneyFinish at h
                injection h with h1 h2
                exact Except.noConfusion h2
          · -- non-USD branch
            dsimp only at h
            split at h
            · injection h with h1 h2
              subst h1
              exact ⟨hpg.2.1, hpg.2.2.1⟩
            · rename_i asset hpos
              split at h
              · injection h with h1 h2
                subst h1
                exact ⟨hpg.2.1, hpg.2.2.1⟩
              · split at h
                · rename_i hnone
                  rw [hpg.2.1] at hnone
                  by_cases hids : sid = recipient.id
                  · rw [← hids, getA_setA_self] at hnone
                    exact Option.noConfusion hnone
                  · rw [getA_setA_ne _ _ hids] at hnone
                    rw [hnone] at hrws
                    simp at hrws
                · unfold sendMoneyFinish at h
                  injection h with h1 h2
                  exact Except.noConfusion h2
  · intro uid aid a pr s' e h
    unfold buyAsset getWallet at h
    dsimp only at h
    split at h
    · injection h with h1 h2
      subst h1
      exact ⟨rfl, rfl⟩
    · split at h
      · injection h with h1 h2
        subst h1
        exact ⟨rfl, rfl⟩
      · injection h with h1 h2
        exact Except.noConfusion h2
  · intro uid aid a pr s' e h
    unfold sellAsset getWallet at h
    dsimp only at h
    split at h
    · injection h with h1 h2
      subst h1
      exact ⟨rfl, rfl⟩
    · split at h
      · injection h with h1 h2
        subst h1
        exact ⟨rfl, rfl⟩
      · split at h
        · injection h with h1 h2
          subst h1
          exact ⟨rfl, rfl⟩
        · injection h with h1 h2
          exact Except.noConfusion h2
  · intro uid f t a pin s' e h
    unfold swapAssets getWallet at h
    have hpg := pinGate_frame s uid pin
    split at h
    · rename_i s0 e0 heq
      rw [heq] at hpg
      injection h with h1 h2
      subst h1
      exact ⟨hpg.2.1, hpg.2.2.1⟩
    · rename_i s0 u heq
      rw [heq] at hpg
      dsimp only at h
      split at h
      · injection h with h1 h2
        subst h1
        exact ⟨hpg.2.1, hpg.2.2.1⟩
      · split at h
        · injection h with h1 h2
          subst h1
          exact ⟨hpg.2.1, hpg.2.2.1⟩
        · split at h
          · injection h with h1 h2
            subst h1
            exact ⟨hpg.2.1, hpg.2.2.1⟩
          · injection h with h1 h2
            exact Except.noConfusion h2

/-- C4 witness: a wrong-PIN `sendMoney` on the fixture fails and is shown
to leave wallets and transactions untouched (only the attempt log and the
security email differ in the error state). -/
theorem C4_atomic_on_error_witness :
    ({ exPinState with
        adminLog := [("pin_verification", "A", false)],
        emails := [("A", "pin_failed")] } : EngineState).wallets =
      exPinState.wallets ∧
    ({ exPinState with
        adminLog := [("pin_verification", "A", false)],
        emails := [("A", "pin_failed")] } : EngineState).transactions =
      exPinState.transactions :=
  (C4_atomic_on_error exPinState (by decide)).1 "A" "bob" 5 "USD" (some "9999")
    { exPinState with
      adminLog := [("pin_verification", "A", false)],
      emails := [("A", "pin_failed")] }
    Err.invalidTransferPin (by decide)

/-- C6: volume-weighted average cost on buy — for a successful
`buyAsset(uid, asset, amount, price)` with an explicit nonzero price and
an existing prior position `(oldBalance, oldAverageCost)`, with
`cost = price * amount`, the position becomes
`(oldBalance + amount, (oldBalance * oldAverageCost + cost) / (oldBalance + amount))`,
the fiat balance decreases by exactly `cost`, and one `buy` transaction
with `metadata = (cost, cost / amount)` is appended. -/
theorem C6_weighted_average_buy (s : EngineState) (uid aid : String) (a p : ℚ)
    (wallet : Wallet) (pos : AssetPosition)
    (hp : p ≠ 0) (hw : getA s.wallets uid = some wallet)
    (hpos : getA wallet.assets aid = some pos)
    (hfunds : ¬ wallet.dollarBalance < p * a) :
    buyAsset s uid aid a (some p) =
      ({ s with
          wallets := setA s.wallets uid
            { dollarBalance := wallet.dollarBalance - p * a,
              assets := setA wallet.assets aid
                { balance := pos.balance + a,
                  averageCost := (pos.balance * pos.averageCost + p * a) /
                    (pos.balance + a) } },
          transactions := s.transactions ++
            [{ id := s.nextId, userId := uid, type := TxType.buy, asset := aid,
               amount := a, counterparty := none, status := "completed",
               metadata := TxMeta.buyMeta (p * a) (p * a / a) }],
          nextId := s.nextId + 1, notes := s.notes + 1 },
       Except.ok
         { id := s.nextId, userId := uid, type := TxType.buy, asset := aid,
           amount := a, counterparty := none, status := "completed",
           metadata := TxMeta.buyMeta (p * a) (p * a / a) }) := by
  unfold buyAsset getWallet
  rw [hw]
  have hcost : jsOr (some p) (jsOr (marketPrice s aid) 0) = p := by
    simp [jsOr, hp]
  dsimp only
  rw [hcost, if_neg hfunds, hpos]
  rw [hpos]
  rfl

/-- C6 witness: the spec's own example — a position of 10 units at average
cost 100, buying 5 more at price 110 (cost 550, paid from fiat 2000),
gives 15 units at average cost (10*100 + 550)/15 = 310/3 = 103.33... . -/
theorem C6_weighted_average_buy_witness :
    buyAsset
      { users := exUsers,
        wallets := [("A", { dollarBalance := 2000, assets := [("BTC", ⟨10, 100⟩)] })],
        transactions := [], pins := [], market := [], adminLog := [], emails := [],
        notes := 0, nextId := 0 } "A" "BTC" 5 (some 110) =
      ({ users := exUsers,
         wallets :=
           [("A", ⟨2000 - 110 * 5, [("BTC", ⟨10 + 5, (10 * 100 + 110 * 5) / (10 + 5)⟩)]⟩)],
         transactions :=
           [{ id := 0, userId := "A", type := TxType.buy, asset := "BTC", amount := 5,
              counterparty := none, status := "completed",
              metadata := TxMeta.buyMeta (110 * 5) (110 * 5 / 5) }],
         pins := [], market := [], adminLog := [], emails := [], notes := 1,
         nextId := 1 },
       Except.ok
         { id := 0, userId := "A", type := TxType.buy, asset := "BTC", amount := 5,
           counterparty := none, status := "completed",
           metadata := TxMeta.buyMeta (110 * 5) (110 * 5 / 5) }) := by
  have h := C6_weighted_average_buy
    { users := exUsers,
      wallets := [("A", { dollarBalance := 2000, assets := [("BTC", ⟨10, 100⟩)] })],
      transactions := [], pins := [], market := [], adminLog := [], emails := [],
      notes := 0, nextId := 0 } "A" "BTC" 5 110
    { dollarBalance := 2000, assets := [("BTC", ⟨10, 100⟩)] } ⟨10, 100⟩
    (by norm_num) (by decide) (by decide) (by norm_num)
  rw [h]
  norm_num [setA]

theorem setA_setA_same {α : Type} (m : List (String × α)) (k : String) (x v : α) :
    setA (setA m k x) k v = setA m k v := by
  induction m with
  | nil => simp [setA]
  | cons hd tl ih =>
    obtain ⟨k', v'⟩ := hd
    by_cases h : k' = k <;> simp [setA, h, ih]

/-- Characterization of a successful fiat `sendMoney` (`assetId = "USD"`,
lines 390-395 and 408-429): sender debited, recipient (looked up in the
post-debit map, which also covers a self-send) credited, exactly one
`send` and one `receive` transaction appended. -/
theorem sendMoney_ok_usd (s : EngineState) (sid rn : String) (a : ℚ)
    (pin : Option String) (s' : EngineState) (tx1 tx2 : Transaction) (recipient : User)
    (hrun : sendMoney s sid rn a "USD" pin = (s', Except.ok (tx1, tx2)))
    (hrec : s.users.find? (fun u => u.username = rn) = some recipient) :
    ∃ wallet rw : Wallet, getA s.wallets sid = some wallet ∧
      getA (setA s.wallets sid ⟨wallet.dollarBalance - a, wallet.assets⟩) recipient.id =
        some rw ∧
      s'.wallets = setA (setA s.wallets sid ⟨wallet.dollarBalance - a, wallet.assets⟩)
        recipient.id ⟨rw.dollarBalance + a, rw.assets⟩ ∧
      s'.transactions = s.transactions ++ [tx1, tx2] ∧
      tx1.userId = sid ∧ tx1.type = TxType.send ∧ tx1.asset = "USD" ∧ tx1.amount = a ∧
      tx2.userId = recipient.id ∧ tx2.type = TxType.receive ∧ tx2.asset = "USD" ∧
      tx2.amount = a ∧ ¬ wallet.dollarBalance < a := by
  unfold sendMoney getWallet at hrun
  have hpg := pinGate_frame s sid pin
  split at hrun
  · injection hrun with h1 h2
    exact Except.noConfusion h2
  · rename_i s0 u heq
    rw [heq] at hpg
    rw [hpg.1, hrec] at hrun
    dsimp only at hrun
    rw [hpg.2.1] at hrun
    split at hrun
    · injection hrun with h1 h2
      exact Except.noConfusion h2
    · rename_i wallet hw
      rw [if_pos rfl] at hrun
      split at hrun
      · injection hrun with h1 h2
        exact Except.noConfusion h2
      · rename_i hguard
        split at hrun
        · injection hrun with h1 h2
          exact Except.noConfusion h2
        · rename_i rw0 hrw0
          refine ⟨wallet, rw0, hw, hrw0, ?_⟩
          unfold sendMoneyFinish createTransaction at hrun
          dsimp only at hrun
          injection hrun with h1 h2
          injection h2 with h2
          injection h2 with h2a h2b
          subst h1
          subst h2a
          subst h2b
          refine ⟨rfl, ?_, rfl, rfl, rfl, rfl, rfl, rfl, rfl, rfl, hguard⟩
          rw [hpg.2.2.1]
          simp

/-- Characterization of a successful non-fiat `sendMoney` (lines 396-429):
the sender's position is debited in place (not removed, even at zero), the
recipient's position — looked up in the post-debit map — is credited
(created at zero average cost if absent), and one `send` plus one
`receive` transaction are appended. -/
theorem sendMoney_ok_asset (s : EngineState) (sid rn aid : String) (a : ℚ)
    (pin : Option String) (s' : EngineState) (tx1 tx2 : Transaction) (recipient : User)
    (hUSD : aid ≠ "USD")
    (hrun : sendMoney s sid rn a aid pin = (s', Except.ok (tx1, tx2)))
    (hrec : s.users.find? (fun u => u.username = rn) = some recipient) :
    ∃ (wallet : Wallet) (pos : AssetPosition) (rw : Wallet),
      getA s.wallets sid = some wallet ∧ getA wallet.assets aid = some pos ∧
      getA (setA s.wallets sid
          ⟨wallet.dollarBalance, setA wallet.assets aid ⟨pos.balance - a, pos.averageCost⟩⟩)
        recipient.id = some rw ∧
      s'.wallets = setA (setA s.wallets sid
          ⟨wallet.dollarBalance, setA wallet.assets aid ⟨pos.balance - a, pos.averageCost⟩⟩)
        recipient.id
          ⟨rw.dollarBalance, setA rw.assets aid
            ⟨((getA rw.assets aid).map AssetPosition.balance).getD 0 + a,
             ((getA rw.assets aid).map AssetPosition.averageCost).getD 0⟩⟩ ∧
      s'.transactions = s.transactions ++ [tx1, tx2] ∧
      tx1.userId = sid ∧ tx1.type = TxType.send ∧ tx1.asset = aid ∧ tx1.amount = a ∧
      tx2.userId = recipient.id ∧ tx2.type = TxType.receive ∧ tx2.asset = aid ∧
      tx2.amount = a ∧ ¬ pos.balance < a := by
  unfold sendMoney getWallet at hrun
  have hpg := pinGate_frame s sid pin
  split at hrun
  · injection hrun with h1 h2
    exact Except.noConfusion h2
  · rename_i s0 u heq
    rw [heq] at hpg
    rw [hpg.1, hrec] at hrun
    dsimp only at hrun
    rw [hpg.2.1] at hrun
    split at hrun
    · injection hrun with h1 h2
      exact Except.noConfusion h2
    · rename_i wallet hw
      rw [if_neg hUSD] at hrun
      split at hrun
      · injection hrun with h1 h2
        exact Except.noConfusion h2
      · rename_i pos hpos
        split at hrun
        · injection hrun with h1 h2
          exact Except.noConfusion h2
        · rename_i hguard
          split at hrun
          · injection hrun with h1 h2
            exact Except.noConfusion h2
          · rename_i rw0 hrw0
            refine ⟨wallet, pos, rw0, hw, hpos, hrw0, ?_⟩
            split at hrun
            · -- the recipient had no position in `aid`
              rename_i hrnone
              unfold sendMoneyFinish createTransaction at hrun
              dsimp only at hrun
              injection hrun with h1 h2
              injection h2 with h2
              injection h2 with h2a h2b
              subst h1
              subst h2a
              subst h2b
              refine ⟨?_, ?_, rfl, rfl, rfl, rfl, rfl, rfl, rfl, rfl, hguard⟩
              · simp [hrnone, getA_setA_self, setA_setA_same]
              · rw [hpg.2.2.1]
                simp
            · -- the recipient already had a position in `aid`
              rename_i hrsome
              unfold sendMoneyFinish createTransaction at hrun
              dsimp only at hrun
              injection hrun with h1 h2
              injection h2 with h2
              injection h2 with h2a h2b
              subst h1
              subst h2a
              subst h2b
              refine ⟨?_, ?_, rfl, rfl, rfl, rfl, rfl, rfl, rfl, rfl, hguard⟩
              · simp [hrsome]
              · rw [hpg.2.2.1]
                simp

/-- C2: zero-sum transfer — every successful
`sendMoney(A → B, amount, asset)` between two distinct users debits the
sender's balance for that asset by exactly `amount`, credits the
recipient's by exactly `amount`, and appends exactly one `send`
transaction on the sender's ledger and one `receive` transaction on the
recipient's, both carrying the same amount and asset. -/
theorem C2_zero_sum_transfer (s : EngineState) (sid rn aid : String) (a : ℚ)
    (pin : Option String) (s' : EngineState) (tx1 tx2 : Transaction) (recipient : User)
    (hrun : sendMoney s sid rn a aid pin = (s', Except.ok (tx1, tx2)))
    (hrec : s.users.find? (fun u => u.username = rn) = some recipient)
    (hne : recipient.id ≠ sid) :
    balanceOf s' sid aid = balanceOf s sid aid - a ∧
    balanceOf s' recipient.id aid = balanceOf s recipient.id aid + a ∧
    s'.transactions = s.transactions ++ [tx1, tx2] ∧
    tx1.userId = sid ∧ tx1.type = TxType.send ∧ tx1.asset = aid ∧ tx1.amount = a ∧
    tx2.userId = recipient.id ∧ tx2.type = TxType.receive ∧ tx2.asset = aid ∧
    tx2.amount = a := by
  by_cases hUSD : aid = "USD"
  · subst hUSD
    obtain ⟨wallet, rw0, hw, hrw, hwal, htx, f1, f2, f3, f4, f5, f6, f7, f8, hguard⟩ :=
      sendMoney_ok_usd s sid rn a pin s' tx1 tx2 recipient hrun hrec
    have hrw' : getA s.wallets recipient.id = some rw0 := by
      rwa [getA_setA_ne _ _ (fun h => hne h.symm)] at hrw
    refine ⟨?_, ?_, htx, f1, f2, f3, f4, f5, f6, f7, f8⟩
    · unfold balanceOf getWallet
      rw [hwal, getA_setA_ne _ _ hne, getA_setA_self, hw]
      simp
    · unfold balanceOf getWallet
      rw [hwal, getA_setA_self, hrw']
      simp
  · obtain ⟨wallet, pos, rw0, hw, hpos, hrw, hwal, htx, f1, f2, f3, f4, f5, f6, f7, f8,
      hguard⟩ := sendMoney_ok_asset s sid rn aid a pin s' tx1 tx2 recipient hUSD hrun hrec
    have hrw' : getA s.wallets recipient.id = some rw0 := by
      rwa [getA_setA_ne _ _ (fun h => hne h.symm)] at hrw
    refine ⟨?_, ?_, htx, f1, f2, f3, f4, f5, f6, f7, f8⟩
    · unfold balanceOf getWallet
      rw [hwal, getA_setA_ne _ _ hne, getA_setA_self, hw]
      simp [hUSD, getA_setA_self, hpos]
    · unfold balanceOf getWallet
      rw [hwal, getA_setA_self, hrw']
      simp [hUSD, getA_setA_self]

/-- C2 witness: the transfer of 5 BTC from alice to bob on the concrete
fixture, with the two appended transactions shown explicitly. -/
theorem C2_zero_sum_transfer_witness :
    balanceOf (sendMoney exState "A" "bob" 5 "BTC" none).1 "A" "BTC" =
      balanceOf exState "A" "BTC" - 5 ∧
    balanceOf (sendMoney exState "A" "bob" 5 "BTC" none).1 "B" "BTC" =
      balanceOf exState "B" "BTC" + 5 := by
  have hrun : sendMoney exState "A" "bob" 5 "BTC" none =
      ((sendMoney exState "A" "bob" 5 "BTC" none).1,
       Except.ok
         ({ id := 0, userId := "A", type := TxType.send, asset := "BTC", amount := 5,
            counterparty := some "bob", status := "completed",
            metadata := TxMeta.emptyMeta },
          { id := 1, userId := "B", type := TxType.receive, asset := "BTC", amount := 5,
            counterparty := some "alice", status := "completed",
            metadata := TxMeta.emptyMeta })) := by
    simp [sendMoney, pinGate, hasTransferPin, getWallet, getA, setA, sendMoneyFinish,
      createTransaction, exState, exUsers, exWalletA, exWalletB, List.find?]
  have h := C2_zero_sum_transfer exState "A" "bob" "BTC" 5 none
    (sendMoney exState "A" "bob" 5 "BTC" none).1
    { id := 0, userId := "A", type := TxType.send, asset := "BTC", amount := 5,
      counterparty := some "bob", status := "completed", metadata := TxMeta.emptyMeta }
    { id := 1, userId := "B", type := TxType.receive, asset := "BTC", amount := 5,
      counterparty := some "alice", status := "completed", metadata := TxMeta.emptyMeta }
    { id := "B", username := "bob" } hrun (by decide) (by decide)
  exact ⟨h.1, h.2.1⟩

/-- C3, counterexample: the position-presence invariant as claimed is
false for `sendMoney` — from `exState` (all positions strictly positive),
sending alice's entire 5-BTC holding to bob succeeds but leaves the key
`"BTC"` in alice's positions map with balance `0`; `sendMoney` has no
removal step (source lines 396-406). -/
theorem C3_counterexample :
    positionsPositive exState ∧
    (sendMoney exState "A" "bob" 5 "BTC" none).2 =
      Except.ok
        ({ id := 0, userId := "A", type := TxType.send, asset := "BTC", amount := 5,
           counterparty := some "bob", status := "completed",
           metadata := TxMeta.emptyMeta },
         { id := 1, userId := "B", type := TxType.receive, asset := "BTC", amount := 5,
           counterparty := some "alice", status := "completed",
           metadata := TxMeta.emptyMeta }) ∧
    hasPosition (sendMoney exState "A" "bob" 5 "BTC" none).1 "A" "BTC" = true ∧
    assetBalanceOf (sendMoney exState "A" "bob" 5 "BTC" none).1 "A" "BTC" = 0 := by
  refine ⟨by decide, ?_, ?_, ?_⟩
  · simp [sendMoney, pinGate, hasTransferPin, getWallet, getA, setA, sendMoneyFinish,
      createTransaction, exState, exUsers, exWalletA, exWalletB, List.find?]
  · simp [hasPosition, sendMoney, pinGate, hasTransferPin, getWallet, getA, setA,
      sendMoneyFinish, createTransaction, exState, exUsers, exWalletA, exWalletB,
      List.find?]
  · simp [assetBalanceOf, sendMoney, pinGate, hasTransferPin, getWallet, getA, setA,
      sendMoneyFinish, createTransaction, exState, exUsers, exWalletA, exWalletB,
      List.find?]

/-- C3, amended: `sellAsset` and `swapAssets` do remove a position whose
balance reaches zero, but `sendMoney` does not — sending a user's entire
holding of an asset (to a different user) leaves the asset key present in
the sender's positions map with balance exactly `0`. -/
theorem C3_position_cleanup (s : EngineState) :
    (∀ uid aid a pr s' tx wallet pos,
        sellAsset s uid aid a pr = (s', Except.ok tx) →
        getA s.wallets uid = some wallet → getA wallet.assets aid = some pos →
        pos.balance = a → hasPosition s' uid aid = false)
  ∧ (∀ uid f t a pin s' tx wallet pos, f ≠ t →
        swapAssets s uid f t a pin = (s', Except.ok tx) →
        getA s.wallets uid = some wallet → getA wallet.assets f = some pos →
        pos.balance = a → hasPosition s' uid f = false)
  ∧ (∀ sid rn aid pin a s' tx1 tx2 recipient, aid ≠ "USD" →
        sendMoney s sid rn a aid pin = (s', Except.ok (tx1, tx2)) →
        s.users.find? (fun u => u.username = rn) = some recipient →
        recipient.id ≠ sid →
        (∀ wallet pos, getA s.wallets sid = some wallet →
          getA wallet.assets aid = some pos → pos.balance = a →
          hasPosition s' sid aid = true ∧ assetBalanceOf s' sid aid = 0)) := by
  refine ⟨?_, ?_, ?_⟩
  · intro uid aid a pr s' tx wallet pos hrun hw hpos hbal
    unfold sellAsset getWallet at hrun
    rw [hw] at hrun
    dsimp only at hrun
    rw [hpos] at hrun
    dsimp only at hrun
    rw [hbal, if_neg (lt_irrefl a), sub_self, if_pos rfl] at hrun
    injection hrun with h1 h2
    subst h1
    simp [hasPosition, getWallet, createTransaction, getA_setA_self, getA_eraseA_self]
  · intro uid f t a pin s' tx wallet pos hft hrun hw hpos hbal
    unfold swapAssets getWallet at hrun
    split at hrun
    · injection hrun with h1 h2
      exact Except.noConfusion h2
    · rename_i s0 u heq
      have hpg := pinGate_frame s uid pin
      rw [heq] at hpg
      rw [hpg.2.1] at hrun
      rw [hw] at hrun
      dsimp only at hrun
      rw [hpos] at hrun
      dsimp only at hrun
      rw [hbal] at hrun
      simp only [lt_self_iff_false, if_false, sub_self,
        getA_setA_ne _ _ hft, getA_setA_self] at hrun
      cases hcase : getA wallet.assets t with
      | none =>
        rw [hcase] at hrun
        dsimp only at hrun
        simp only [getA_setA_self, getA_setA_ne _ _ (Ne.symm hft), Option.getD_some,
          eq_self_iff_true, if_true] at hrun
        injection hrun with h1 h2
        subst h1
        simp [hasPosition, getWallet, createTransaction, getA_setA_self,
          getA_eraseA_self]
      | some pos2 =>
        rw [hcase] at hrun
        dsimp only at hrun
        simp only [getA_setA_self, getA_setA_ne _ _ (Ne.symm hft), Option.getD_some,
          eq_self_iff_true, if_true] at hrun
        injection hrun with h1 h2
        subst h1
        simp [hasPosition, getWallet, createTransaction, getA_setA_self,
          getA_eraseA_self]
  · intro sid rn aid pin a s' tx1 tx2 recipient hUSD hrun hrec hne wallet pos hw hpos hbal
    obtain ⟨wallet', pos', rw0, hw', hpos', hrw, hwal, _⟩ :=
      sendMoney_ok_asset s sid rn aid a pin s' tx1 tx2 recipient hUSD hrun hrec
    rw [hw] at hw'
    injection hw' with hw2
    subst hw2
    rw [hpos] at hpos'
    injection hpos' with hp2
    subst hp2
    constructor
    · unfold hasPosition getWallet
      rw [hwal, getA_setA_ne _ _ hne, getA_setA_self]
      simp [getA_setA_self]
    · unfold assetBalanceOf getWallet
      rw [hwal, getA_setA_ne _ _ hne, getA_setA_self]
      simp [getA_setA_self, hbal]

/-- C3 witness: selling alice's whole BTC holding removes the position,
and swapping a whole holding removes it too. -/
theorem C3_position_cleanup_witness :
    hasPosition (sellAsset exState "A" "BTC" 5 none).1 "A" "BTC" = false ∧
    hasPosition (swapAssets exState "A" "BTC" "ETH" 5 none).1 "A" "BTC" = false := by
  constructor
  · exact (C3_position_cleanup exState).1 "A" "BTC" 5 none
      (sellAsset exState "A" "BTC" 5 none).1
      { id := 0, userId := "A", type := TxType.sell, asset := "BTC", amount := 5,
        counterparty := none, status := "completed",
        metadata := TxMeta.sellMeta 500 100 }
      exWalletA ⟨5, 10⟩
      (by norm_num [sellAsset, getWallet, getA, setA, eraseA, createTransaction, jsOr,
        marketPrice, exState, exUsers, exWalletA, exWalletB])
      (by decide) (by decide) (by decide)
  · exact (C3_position_cleanup exState).2.1 "A" "BTC" "ETH" 5 none
      (swapAssets exState "A" "BTC" "ETH" 5 none).1
      { id := 0, userId := "A", type := TxType.swap, asset := "BTC", amount := 5,
        counterparty := none, status := "completed",
        metadata := TxMeta.swapMeta "ETH" 10 2 }
      exWalletA ⟨5, 10⟩ (by decide)
      (by simp [swapAssets, pinGate, hasTransferPin, getWallet, getA, setA, eraseA,
        createTransaction, jsOr, marketPrice, exState, exUsers, exWalletA,
        exWalletB] <;> norm_num)
      (by decide) (by decide) (by decide)

theorem marketPrice_eq_of_market_eq {s' s : EngineState} (h : s'.market = s.market)
    (aid : String) : marketPrice s' aid = marketPrice s aid := by
  unfold marketPrice
  rw [h]

/-- C9: swap conversion — for distinct assets, a successful
`swapAssets(uid, from, to, amount)` credits `to` by exactly
`amount * priceOf(from) / priceOf(to)` (prices resolved through the JS
`|| 0` chain), debits `from` by exactly `amount` (removing the position
when it is exhausted), leaves `to`'s stored average cost unchanged (zero
when the position was just created), and records that rate in the swap
transaction; moreover a zero or absent oracle quote for `to` is not an
error: the swap still completes successfully. -/
theorem C9_swap_conversion (s : EngineState) (uid f t : String) (a : ℚ)
    (pin : Option String) :
    (∀ s' tx, f ≠ t → swapAssets s uid f t a pin = (s', Except.ok tx) →
        assetBalanceOf s' uid t = assetBalanceOf s uid t +
          a * jsOr (marketPrice s f) 0 / jsOr (marketPrice s t) 0 ∧
        assetBalanceOf s' uid f = assetBalanceOf s uid f - a ∧
        (assetBalanceOf s uid f = a → hasPosition s' uid f = false) ∧
        avgCostOf s' uid t = avgCostOf s uid t ∧
        tx.type = TxType.swap ∧ tx.asset = f ∧ tx.amount = a ∧
        tx.metadata = TxMeta.swapMeta t
          (a * jsOr (marketPrice s f) 0 / jsOr (marketPrice s t) 0)
          (jsOr (marketPrice s f) 0 / jsOr (marketPrice s t) 0))
  ∧ (∀ wallet pos, hasTransferPin s uid = false →
        getA s.wallets uid = some wallet → getA wallet.assets f = some pos →
        ¬ pos.balance < a → jsOr (marketPrice s t) 0 = 0 →
        ∃ s' tx, swapAssets s uid f t a none = (s', Except.ok tx)) := by
  constructor
  · intro s' tx hft hrun
    unfold swapAssets getWallet at hrun
    split at hrun
    · injection hrun with h1 h2
      exact Except.noConfusion h2
    · rename_i s0 u heq
      have hpg := pinGate_frame s uid pin
      rw [heq] at hpg
      rw [hpg.2.1, marketPrice_eq_of_market_eq hpg.2.2.2.2 f,
        marketPrice_eq_of_market_eq hpg.2.2.2.2 t] at hrun
      split at hrun
      · injection hrun with h1 h2
        exact Except.noConfusion h2
      · rename_i wallet hw
        split at hrun
        · injection hrun with h1 h2
          exact Except.noConfusion h2
        · rename_i pos hpos
          split at hrun
          · injection hrun with h1 h2
            exact Except.noConfusion h2
          · rename_i hguard
            simp only [getA_setA_ne _ _ hft, getA_setA_self] at hrun
            cases hcase : getA wallet.assets t with
            | none =>
              rw [hcase] at hrun
              dsimp only at hrun
              simp only [getA_setA_self, getA_setA_ne _ _ (Ne.symm hft),
                Option.getD_some] at hrun
              split at hrun
              · rename_i hz
                injection hrun with h1 h2
                injection h2 with h2
                subst h1
                subst h2
                refine ⟨?_, ?_, ?_, ?_, rfl, rfl, rfl, rfl⟩
                · simp [assetBalanceOf, avgCostOf, hasPosition, getWallet, createTransaction,
                    getA_setA_self, getA_setA_ne _ _ hft, getA_setA_ne _ _ (Ne.symm hft),
                    getA_eraseA_self, getA_eraseA_ne _ hft, hw, hpos, hcase, hz]
                · simp [assetBalanceOf, avgCostOf, hasPosition, getWallet, createTransaction,
                    getA_setA_self, getA_setA_ne _ _ hft, getA_setA_ne _ _ (Ne.symm hft),
                    getA_eraseA_self, getA_eraseA_ne _ hft, hw, hpos, hcase, hz]
                · intro hfull
                  simp [assetBalanceOf, avgCostOf, hasPosition, getWallet, createTransaction,
                    getA_setA_self, getA_setA_ne _ _ hft, getA_setA_ne _ _ (Ne.symm hft),
                    getA_eraseA_self, getA_eraseA_ne _ hft, hw, hpos, hcase, hz]
                · simp [assetBalanceOf, avgCostOf, hasPosition, getWallet, createTransaction,
                    getA_setA_self, getA_setA_ne _ _ hft, getA_setA_ne _ _ (Ne.symm hft),
                    getA_eraseA_self, getA_eraseA_ne _ hft, hw, hpos, hcase, hz]
              · rename_i hz
                injection hrun with h1 h2
                injection h2 with h2
                subst h1
                subst h2
                refine ⟨?_, ?_, ?_, ?_, rfl, rfl, rfl, rfl⟩
                · simp [assetBalanceOf, avgCostOf, hasPosition, getWallet, createTransaction,
                    getA_setA_self, getA_setA_ne _ _ hft, getA_setA_ne _ _ (Ne.symm hft),
                    getA_eraseA_self, getA_eraseA_ne _ hft, hw, hpos, hcase, hz]
                · simp [assetBalanceOf, avgCostOf, hasPosition, getWallet, createTransaction,
                    getA_setA_self, getA_setA_ne _ _ hft, getA_setA_ne _ _ (Ne.symm hft),
                    getA_eraseA_self, getA_eraseA_ne _ hft, hw, hpos, hcase, hz]
                · intro hfull
                  exfalso
                  apply hz
                  have hpb : pos.balance = a := by
                    simpa [assetBalanceOf, getWallet, hw, hpos] using hfull
                  rw [hpb, sub_self]
                · simp [assetBalanceOf, avgCostOf, hasPosition, getWallet, createTransaction,
                    getA_setA_self, getA_setA_ne _ _ hft, getA_setA_ne _ _ (Ne.symm hft),
                    getA_eraseA_self, getA_eraseA_ne _ hft, hw, hpos, hcase, hz]
            | some pos2 =>
              rw [hcase] at hrun
              dsimp only at hrun
              simp only [getA_setA_self, getA_setA_ne _ _ (Ne.symm hft),
                Option.getD_some] at hrun
              split at hrun
              · rename_i hz
                injection hrun with h1 h2
                injection h2 with h2
                subst h1
                subst h2
                refine ⟨?_, ?_, ?_, ?_, rfl, rfl, rfl, rfl⟩
                · simp [assetBalanceOf, avgCostOf, hasPosition, getWallet, createTransaction,
                    getA_setA_self, getA_setA_ne _ _ hft, getA_setA_ne _ _ (Ne.symm hft),
                    getA_eraseA_self, getA_eraseA_ne _ hft, hw, hpos, hcase, hz]
                · simp [assetBalanceOf, avgCostOf, hasPosition, getWallet, createTransaction,
                    getA_setA_self, getA_setA_ne _ _ hft, getA_setA_ne _ _ (Ne.symm hft),
                    getA_eraseA_self, getA_eraseA_ne _ hft, hw, hpos, hcase, hz]
                · intro hfull
                  simp [assetBalanceOf, avgCostOf, hasPosition, getWallet, createTransaction,
                    getA_setA_self, getA_setA_ne _ _ hft, getA_setA_ne _ _ (Ne.symm hft),
                    getA_eraseA_self, getA_eraseA_ne _ hft, hw, hpos, hcase, hz]
                · simp [assetBalanceOf, avgCostOf, hasPosition, getWallet, createTransaction,
                    getA_setA_self, getA_setA_ne _ _ hft, getA_setA_ne _ _ (Ne.symm hft),
                    getA_eraseA_self, getA_eraseA_ne _ hft, hw, hpos, hcase, hz]
              · rename_i hz
                injection hrun with h1 h2
                injection h2 with h2
                subst h1
                subst h2
                refine ⟨?_, ?_, ?_, ?_, rfl, rfl, rfl, rfl⟩
                · simp [assetBalanceOf, avgCostOf, hasPosition, getWallet, createTransaction,
                    getA_setA_self, getA_setA_ne _ _ hft, getA_setA_ne _ _ (Ne.symm hft),
                    getA_eraseA_self, getA_eraseA_ne _ hft, hw, hpos, hcase, hz]
                · simp [assetBalanceOf, avgCostOf, hasPosition, getWallet, createTransaction,
                    getA_setA_self, getA_setA_ne _ _ hft, getA_setA_ne _ _ (Ne.symm hft),
                    getA_eraseA_self, getA_eraseA_ne _ hft, hw, hpos, hcase, hz]
                · intro hfull
                  exfalso
                  apply hz
                  have hpb : pos.balance = a := by
                    simpa [assetBalanceOf, getWallet, hw, hpos] using hfull
                  rw [hpb, sub_self]
                · simp [assetBalanceOf, avgCostOf, hasPosition, getWallet, createTransaction,
                    getA_setA_self, getA_setA_ne _ _ hft, getA_setA_ne _ _ (Ne.symm hft),
                    getA_eraseA_self, getA_eraseA_ne _ hft, hw, hpos, hcase, hz]
  · intro wallet pos hpin hw hpos hbal hzero
    have hgate : pinGate s uid none = (s, Except.ok ()) := by
      unfold pinGate
      rw [hpin]
      rfl
    unfold swapAssets getWallet
    rw [hgate]
    dsimp only
    rw [hw]
    dsimp only
    rw [hpos]
    dsimp only
    rw [if_neg hbal]
    exact ⟨_, _, rfl⟩

/-- C9 witness: swapping 2 of alice's 5 BTC (price 100) into ETH
(price 50) credits 2*100/50 ETH, and swapping into the unquoted asset
XYZ (absent quote, resolved price 0) still succeeds. -/
theorem C9_swap_conversion_witness :
    (assetBalanceOf (swapAssets exState "A" "BTC" "ETH" 2 none).1 "A" "ETH" =
       assetBalanceOf exState "A" "ETH" +
         2 * jsOr (marketPrice exState "BTC") 0 / jsOr (marketPrice exState "ETH") 0) ∧
    (∃ s' tx, swapAssets exState "A" "BTC" "XYZ" 2 none = (s', Except.ok tx)) :=
  ⟨((C9_swap_conversion exState "A" "BTC" "ETH" 2 none).1
      (swapAssets exState "A" "BTC" "ETH" 2 none).1
      { id := 0, userId := "A", type := TxType.swap, asset := "BTC", amount := 2,
        counterparty := none, status := "completed",
        metadata := TxMeta.swapMeta "ETH" 4 2 }
      (by decide)
      (by simp [swapAssets, pinGate, hasTransferPin, getWallet, getA, setA, eraseA,
        createTransaction, jsOr, marketPrice, exState, exUsers, exWalletA,
        exWalletB] <;> norm_num)).1,
   (C9_swap_conversion exState "A" "BTC" "XYZ" 2 none).2 exWalletA ⟨5, 10⟩
      (by decide) (by decide) (by decide) (by decide) (by decide)⟩

end NobleChain
